import Mathlib

/-!
Verification of the Session Agent core of the `tabbi` repository
(`src/cloudflare/src/agent.ts`, `src/cloudflare/src/index.ts`,
`src/cloudflare/src/types.ts`) against its natural-language specification.

The TypeScript code is shallowly embedded: each handler of the
`SessionAgent` durable object becomes a pure Lean function from the current
`SessionState` (plus an explicit environment recording the outcomes of all
external calls: Modal API, OpenCode HTTP/SSE, health probes) to the result,
the successor state, and the trace of durable writes of the `"session"` key.
JavaScript `||` string truthiness (empty string is falsy) is modelled by
`jsOr`; `String.prototype.trim` by `jsTrim`; `crypto.randomUUID` by ids
threaded through the environment / a counter.
-/

namespace Tabbi

/-- Session status enum from `types.ts` (`SessionStatus`). -/
inductive Status
  | idle
  | starting
  | running
  | paused
  | error
deriving DecidableEq, Repr

/-- Message roles from `types.ts` (`Message.role`). -/
inductive Role
  | user
  | assistant
  | system
deriving DecidableEq, Repr

/-- Normalized tool-call state from `types.ts` (`ToolCall.state`). -/
inductive ToolState
  | pending
  | running
  | completed
  | error
deriving DecidableEq, Repr

/-- `ToolCall` from `types.ts`; the `arguments` object is modelled as an
association list of string key/value pairs. -/
structure ToolCall where
  id : String
  name : String
  arguments : List (String × String)
  result : Option String
  state : ToolState
deriving DecidableEq, Repr

/-- `MessagePart` from `types.ts`: a tagged union of a text part and a tool
part.  The TypeScript record with optional fields is only ever constructed as
`{type:"text", text}` or `{type:"tool", toolCall}`, which this inductive
captures. -/
inductive MsgPart
  | text (t : String)
  | tool (tc : ToolCall)
deriving DecidableEq, Repr

/-- `Message` from `types.ts`. -/
structure Message where
  id : String
  role : Role
  parts : List MsgPart
  timestamp : Nat
deriving DecidableEq, Repr

/-- `SessionState` from `types.ts`.  Optional fields (`userId`,
`selectedModel`, `provider`, `isProcessing`, `streamingMessage`, `error`)
are `Option`s / a `Bool` defaulting to `false` for `undefined`. -/
structure SessionState where
  sessionId : String
  repo : String
  userId : Option String
  selectedModel : Option String
  provider : Option String
  sandboxId : Option String
  sandboxUrl : Option String
  snapshotId : Option String
  opencodeSessionId : Option String
  status : Status
  isProcessing : Bool
  messages : List Message
  streamingMessage : Option Message
  error : Option String
  createdAt : Nat
  updatedAt : Nat
deriving DecidableEq, Repr

/-- The state built in the `SessionAgent` constructor (`agent.ts`,
lines 67-78) before any stored state is loaded: a fresh actor. -/
def freshState (now : Nat) : SessionState :=
  { sessionId := ""
    repo := ""
    userId := none
    selectedModel := none
    provider := none
    sandboxId := none
    sandboxUrl := none
    snapshotId := none
    opencodeSessionId := none
    status := Status.idle
    isProcessing := false
    messages := []
    streamingMessage := none
    error := none
    createdAt := now
    updatedAt := now }

/-! ## JavaScript helpers -/

/-- JavaScript `a || b` on possibly-undefined strings: `undefined` and the
empty string are falsy. -/
def jsOr (a b : Option String) : Option String :=
  match a with
  | some s => if s = "" then b else some s
  | none => b

/-- JavaScript whitespace test used by `String.prototype.trim` (restricted to
the whitespace characters that occur in this system). -/
def isWsChar (c : Char) : Bool :=
  c = ' ' ∨ c = '\t' ∨ c = '\n' ∨ c = '\r'

/-- Model of JavaScript `String.prototype.trim`. -/
def jsTrim (s : String) : String :=
  String.mk (((s.data.dropWhile isWsChar).reverse.dropWhile isWsChar).reverse)

/-! ## C7: `withRetry` (`agent.ts` lines 224-251)

A thrown JavaScript value is either a `Response` object (carrying an HTTP
status) or an `Error` (carrying a message); the retryability test
`!(err instanceof Response && err.status < 500)` distinguishes exactly
these two shapes. -/

/-- A value thrown inside a `withRetry` operation. -/
inductive JsThrown
  | response (status : Nat)
  | jsError (msg : String)
deriving DecidableEq, Repr

/-- `agent.ts` line 236: `const isRetryable = !(err instanceof Response &&
(err as Response).status < 500)`. -/
def isRetryableErr : JsThrown → Bool
  | JsThrown.response st => decide (500 ≤ st)
  | JsThrown.jsError _ => true

/-- The retry loop of `withRetry`.  `op n` is the outcome of attempt `n`
(0-based).  Returns the result (`none` after exhaustion or a non-retryable
failure), the number of attempts performed, and the list of delays (ms)
slept between attempts.  The `fuel` argument makes the `for` loop
structurally recursive; `withRetry` instantiates it with `maxRetries`. -/
def withRetryGo {α : Type} (op : Nat → Except JsThrown α) (maxRetries : Nat) :
    Nat → Nat → Option α × Nat × List Nat
  | _, 0 => (none, 0, [])
  | attempt, fuel + 1 =>
    match op attempt with
    | Except.ok v => (some v, 1, [])
    | Except.error e =>
      if attempt = maxRetries - 1 ∨ ¬ isRetryableErr e then
        (none, 1, [])
      else
        let delay := 1000 * 2 ^ attempt
        let rest := withRetryGo op maxRetries (attempt + 1) fuel
        (rest.1, rest.2.1 + 1, delay :: rest.2.2)

/-- `withRetry(operation, name, maxRetries = 3)` from `agent.ts`. -/
def withRetry {α : Type} (op : Nat → Except JsThrown α) (maxRetries : Nat) :
    Option α × Nat × List Nat :=
  withRetryGo op maxRetries 0 maxRetries

/-- The operation wrapped by `updateConvexStatus` / `syncMessageToConvex`
(`agent.ts` lines 195-217, 262-284): a `fetch` whose non-ok response is
rethrown as `new Error("HTTP <status>: <body>")` — an `Error`, not a
`Response`.  `res` is the HTTP response (status, body) of one attempt. -/
def convexDbOp (res : Nat × String) : Except JsThrown Unit :=
  if 200 ≤ res.1 ∧ res.1 < 300 then Except.ok ()
  else Except.error (JsThrown.jsError ("HTTP " ++ toString res.1 ++ ": " ++ res.2))

/-! ## C8: `getStateForClient` (`agent.ts` lines 290-298) -/

/-- `getStateForClient`: the object spread `{...this.sessionState, messages:
[...messages, streamingMessage]}` keeps every other field — including
`streamingMessage` itself — unchanged. -/
def getStateForClient (s : SessionState) : SessionState :=
  match s.streamingMessage with
  | some m => { s with messages := s.messages ++ [m] }
  | none => s

/-! ## C4: final-parts selection (`agent.ts` lines 1199-1220) -/

/-- Whether a normalized part is a tool part (`p.type === "tool"`). -/
def isToolMsgPart : MsgPart → Bool
  | MsgPart.tool _ => true
  | MsgPart.text _ => false

/-- `streamingParts.filter(p => p.type === "tool").length` and its twin for
the final fetch. -/
def countToolParts (ps : List MsgPart) : Nat :=
  (ps.filter isToolMsgPart).length

/-- `agent.ts` lines 1213-1220: prefer the authoritative parts from the final
`/session/:id/message` fetch unless that fetch produced zero parts, or it
produced zero tool parts while streaming produced at least one. -/
def chooseFinalParts (streamingParts finalParts : List MsgPart) : List MsgPart :=
  if finalParts.length = 0 ∨ (countToolParts finalParts = 0 ∧ countToolParts streamingParts > 0)
  then streamingParts
  else finalParts

/-! ## C9: per-user rate limiter (`index.ts` lines 57-78) -/

/-- One entry of `rateLimitMap`. -/
structure RLRecord where
  count : Nat
  resetAt : Nat
deriving DecidableEq, Repr

/-- `RATE_LIMIT_WINDOW_MS`. -/
def rlWindowMs : Nat := 60000

/-- `RATE_LIMIT_MAX_REQUESTS`. -/
def rlMax : Nat := 100

/-- Result of `checkRateLimit`. -/
structure RLResult where
  allowed : Bool
  remaining : Nat
  resetAt : Nat
deriving DecidableEq, Repr

/-- The process-local `rateLimitMap`, as an association list keyed by
`userId`. -/
def RLMap : Type := List (String × RLRecord)

/-- `rateLimitMap.get(key)`. -/
def rlLookup (u : String) : RLMap → Option RLRecord
  | [] => none
  | kv :: rest => if kv.1 = u then some kv.2 else rlLookup u rest

/-- `rateLimitMap.set(key, rec)` (overwrite or insert). -/
def rlSet (u : String) (r : RLRecord) : RLMap → RLMap
  | [] => [(u, r)]
  | kv :: rest => if kv.1 = u then (u, r) :: rest else kv :: rlSet u r rest

/-- `checkRateLimit(userId)` from `index.ts`, with `Date.now()` passed as
`now` and the map threaded explicitly. -/
def checkRateLimit (now : Nat) (u : String) (m : RLMap) : RLResult × RLMap :=
  match rlLookup u m with
  | none =>
    ({ allowed := true, remaining := rlMax - 1, resetAt := now + rlWindowMs },
      rlSet u { count := 1, resetAt := now + rlWindowMs } m)
  | some r =>
    if now > r.resetAt then
      ({ allowed := true, remaining := rlMax - 1, resetAt := now + rlWindowMs },
        rlSet u { count := 1, resetAt := now + rlWindowMs } m)
    else if r.count ≥ rlMax then
      ({ allowed := false, remaining := 0, resetAt := r.resetAt }, m)
    else
      ({ allowed := true, remaining := rlMax - (r.count + 1), resetAt := r.resetAt },
        rlSet u { count := r.count + 1, resetAt := r.resetAt } m)

/-- One authenticated request reaching the middleware: its arrival time and
the token's user. -/
structure RLReq where
  time : Nat
  user : String
deriving DecidableEq, Repr

/-- Run a sequence of authenticated requests through the rate limiter,
recording for each the limiter's verdict.  A request whose verdict is
`allowed = false` is answered 429 by the middleware (`index.ts` line 130)
before any command is dispatched to the session actor. -/
def rlRun (m : RLMap) : List RLReq → List (RLReq × RLResult) × RLMap
  | [] => ([], m)
  | r :: rest =>
    let stepRes := checkRateLimit r.time r.user m
    let restRes := rlRun stepRes.2 rest
    ((r, stepRes.1) :: restRes.1, restRes.2)

/-- Number of accepted requests of user `u` whose time lies in `[lo, hi]` in
a run log. -/
def acceptedInSpan (u : String) (lo hi : Nat) (log : List (RLReq × RLResult)) : Nat :=
  (log.filter fun e => e.2.allowed ∧ e.1.user = u ∧ lo ≤ e.1.time ∧ e.1.time ≤ hi).length

/-! ## Event normalizer (`agent.ts` lines 838-1067, `types.ts` `OpenCodePart`)

`OpenCodePart` from `types.ts`, with the nested `state` object flattened
into `stateInput` / `stateOutput` / `stateStatus`.  All fields the code
accesses with `?.` or `||` fallbacks are `Option`s. -/

structure OpenCodePart where
  id : Option String
  messageID : Option String
  ptype : String
  text : Option String
  tool : Option String
  name : Option String
  toolName : Option String
  callID : Option String
  toolCallId : Option String
  stateInput : Option (List (String × String))
  stateOutput : Option String
  stateStatus : Option String
  input : Option (List (String × String))
  output : Option String
  result : Option String
  arguments : Option (List (String × String))
  status : Option String
deriving DecidableEq, Repr

/-- An `OpenCodePart` with every field absent; concrete parts override the
fields they carry. -/
def emptyPart : OpenCodePart :=
  { id := none, messageID := none, ptype := "", text := none, tool := none,
    name := none, toolName := none, callID := none, toolCallId := none,
    stateInput := none, stateOutput := none, stateStatus := none,
    input := none, output := none, result := none, arguments := none,
    status := none }

/-- `isToolPart` (`agent.ts` lines 871-874). -/
def isToolPart (p : OpenCodePart) : Bool :=
  p.ptype ∈ ["tool", "tool-call", "tool_call", "tool-invocation", "tool_use"]

/-- JavaScript `a || b` for object-valued fields: `undefined` is the only
falsy value (every object, even `{}`, is truthy). -/
def jsOrObj {α : Type} (a b : Option α) : Option α :=
  match a with
  | some x => some x
  | none => b

/-- `extractToolCall` (`agent.ts` lines 877-903).  `uuid` stands for the
`crypto.randomUUID()` value generated if all id aliases are falsy. -/
def extractToolCall (uuid : String) (p : OpenCodePart) : ToolCall :=
  let rawState := (jsOr p.stateStatus (jsOr p.status (some "running"))).getD "running"
  let st : ToolState :=
    match rawState with
    | "pending" => ToolState.pending
    | "running" => ToolState.running
    | "completed" => ToolState.completed
    | "error" => ToolState.error
    | "success" => ToolState.completed
    | "failed" => ToolState.error
    | _ => ToolState.running
  { id := (jsOr p.id (jsOr p.callID (jsOr p.toolCallId (some uuid)))).getD uuid
    name := (jsOr p.tool (jsOr p.name (jsOr p.toolName (some "unknown")))).getD "unknown"
    arguments := (jsOrObj p.stateInput (jsOrObj p.input p.arguments)).getD []
    result := jsOr p.stateOutput (jsOr p.output p.result)
    state := st }

/-- A raw SSE event as consumed by the event callback (`agent.ts` line 938).
`time` is the value of `Date.now()` while the event is handled (used for
`firstSeenAt`, the generated fallback part ids, and the 2-second
streaming-save throttle). -/
structure RawEvent where
  etype : String
  part : Option OpenCodePart
  index : Option Nat
  time : Nat
deriving DecidableEq, Repr

/-- `TrackedPart` from `types.ts`. -/
structure TrackedPart where
  partId : String
  messageId : String
  firstSeenAt : Nat
  part : MsgPart
deriving DecidableEq, Repr

/-- `partsTracker.has(pid)`. -/
def trackerHas (tr : List TrackedPart) (pid : String) : Bool :=
  tr.any fun t => t.partId = pid

/-- `partsTracker.set`: either update the `part` of the existing entry with
this id (keeping its `firstSeenAt`) or append a fresh entry, exactly as the
`existing ? update : set` branches at `agent.ts` lines 1012-1026 and
1047-1061 do. -/
def trackerSet (tr : List TrackedPart) (pid mid : String) (seen : Nat) (p : MsgPart) :
    List TrackedPart :=
  if trackerHas tr pid then
    tr.map fun t => if t.partId = pid then { t with part := p } else t
  else
    tr ++ [{ partId := pid, messageId := mid, firstSeenAt := seen, part := p }]

/-- Stable insertion of a tracked part into a list sorted by `firstSeenAt`
(JavaScript `Array.prototype.sort` is stable; an element is placed after all
elements with a key ≤ its own). -/
def insertByFirstSeen (t : TrackedPart) : List TrackedPart → List TrackedPart
  | [] => [t]
  | x :: xs =>
    if x.firstSeenAt ≤ t.firstSeenAt then x :: insertByFirstSeen t xs
    else t :: x :: xs

/-- `sort((a, b) => a.firstSeenAt - b.firstSeenAt)`. -/
def sortByFirstSeen : List TrackedPart → List TrackedPart
  | [] => []
  | t :: ts => insertByFirstSeen t (sortByFirstSeen ts)

/-- The filter of `getPartsInOrder` (`agent.ts` lines 916-920): keep text
parts with truthy non-empty text and tool parts with a `toolCall`. -/
def partKeep : MsgPart → Bool
  | MsgPart.text t => t.length > 0
  | MsgPart.tool _ => true

/-- `getPartsInOrder` (`agent.ts` lines 912-921). -/
def getPartsInOrder (tr : List TrackedPart) : List MsgPart :=
  ((sortByFirstSeen tr).map TrackedPart.part).filter partKeep

/-- The mutable context of one prompt's streaming capture: the parts
tracker, `currentTextPartId`, the fresh-uuid counter, `lastSaveTime`, the
in-memory `this.sessionState` (mutated by `saveStreamingProgress`), the
accumulated durable writes, and the contents of the emitted `streaming`
frames.  The 100 ms broadcast throttle only coalesces consecutive frames
(every frame it emits is one of these snapshots, possibly with some
intermediate snapshots dropped), so `frames` records every snapshot handed
to `broadcastStreamingParts` with non-empty parts. -/
structure StreamCtx where
  tracker : List TrackedPart
  currentTextPartId : Option String
  uuidCtr : Nat
  lastSaveTime : Nat
  sess : SessionState
  writes : List SessionState
  frames : List (List MsgPart)
deriving Repr

/-- `broadcastStreamingParts` (`agent.ts` lines 1432-1457): frames with no
parts are dropped; otherwise the snapshot is (possibly deferred and)
broadcast. -/
def pushFrame (ctx : StreamCtx) (parts : List MsgPart) : StreamCtx :=
  if parts.length = 0 then ctx else { ctx with frames := ctx.frames ++ [parts] }

/-- `saveStreamingProgress` (`agent.ts` lines 849-868): at most one durable
write of the in-progress `streamingMessage` per 2 seconds. -/
def saveStreamingProgress (assistantId : String) (now : Nat) (ctx : StreamCtx) : StreamCtx :=
  if now - ctx.lastSaveTime < 2000 then ctx
  else
    let ctx := { ctx with lastSaveTime := now }
    let streamingParts := getPartsInOrder ctx.tracker
    if streamingParts.length > 0 then
      let sm : Message :=
        { id := assistantId, role := Role.assistant, parts := streamingParts, timestamp := now }
      let ns := { ctx.sess with streamingMessage := some sm, updatedAt := now }
      { ctx with sess := ns, writes := ctx.writes ++ [ns] }
    else ctx

/-- The per-event branch of the SSE callback (`agent.ts` lines 959-1066);
`userPromptText` is `text.trim()` stored at line 836, `assistantId` the
placeholder assistant message id.  Events other than `message.part.updated`
only toggle the `connected`/`idle` flags or are forwarded verbatim and do
not touch the tracker or the session state. -/
def processEvent (userPromptText assistantId : String) (ctx : StreamCtx) (e : RawEvent) :
    StreamCtx :=
  if e.etype = "message.part.updated" then
    match e.part with
    | none => ctx
    | some p =>
      let mid := (jsOr p.messageID (some "unknown")).getD "unknown"
      if p.ptype = "text" ∧ p.text ≠ none then
        let textContent := p.text.getD ""
        if jsTrim textContent = userPromptText then ctx
        else if textContent = "" ∨ (jsTrim textContent).length = 0 then ctx
        else
          let pid :=
            match jsOr p.id none with
            | some i => i
            | none =>
              match e.index with
              | some n => "text-" ++ toString n
              | none =>
                match ctx.currentTextPartId with
                | some cid =>
                  if trackerHas ctx.tracker cid then cid else "text-" ++ toString e.time
                | none => "text-" ++ toString e.time
          let tracker := trackerSet ctx.tracker pid mid e.time (MsgPart.text textContent)
          let ctx := { ctx with tracker := tracker, currentTextPartId := some pid }
          let ctx := pushFrame ctx (getPartsInOrder tracker)
          saveStreamingProgress assistantId e.time ctx
      else if isToolPart p then
        let ctx := { ctx with currentTextPartId := none }
        let uuid := "uuid-" ++ toString ctx.uuidCtr
        let ctx := { ctx with uuidCtr := ctx.uuidCtr + 1 }
        let tc := extractToolCall uuid p
        let fallbackId :=
          match e.index with
          | some n => "tool-" ++ toString n
          | none => "tool-" ++ toString e.time
        let pid :=
          (jsOr p.id (jsOr p.callID (jsOr p.toolCallId
            (jsOr (some tc.id) (some fallbackId))))).getD fallbackId
        let tracker := trackerSet ctx.tracker pid mid e.time (MsgPart.tool tc)
        let ctx := { ctx with tracker := tracker }
        let ctx := pushFrame ctx (getPartsInOrder tracker)
        saveStreamingProgress assistantId e.time ctx
      else ctx
  else ctx

/-! ## Lifecycle handlers

Each handler returns `(result, finalState, writes)` where `result` is
`Except.error msg` when the TypeScript handler throws (surfaced as a 400 by
the durable object's `fetch`), and `writes` is the ordered list of states
durably written under the `"session"` key (`storage.put` inside
`saveAndBroadcast` or `saveStreamingProgress`). -/

/-- Outcome triple of one command handler. -/
def HandlerOut : Type := Except String Unit × SessionState × List SessionState

/-- External outcomes consumed by `handleResumeInternal`: the Modal
`api-resume-sandbox` call, the `waitForOpenCode` health poll, and the
OpenCode `POST /session` call. -/
structure ResumeEnv where
  resumeResult : Except String (String × String)
  healthyOk : Bool
  createSessionResult : Except String String
deriving Repr

/-- Error text thrown by `waitForOpenCode` after 30 failed attempts. -/
def waitHealthyErrMsg : String := "OpenCode server failed to start after 30 attempts"

/-- `handleResumeInternal` (`agent.ts` lines 1634-1710). -/
def handleResumeInternal (env : ResumeEnv) (now : Nat) (s : SessionState) : HandlerOut :=
  match s.snapshotId with
  | none => (Except.error "No snapshot available to resume from", s, [])
  | some _ =>
    let s1 := { s with status := Status.starting, updatedAt := now }
    match env.resumeResult with
    | Except.error e =>
      let s2 := { s1 with status := Status.error, error := some e, updatedAt := now }
      (Except.error e, s2, [s1, s2])
    | Except.ok pr =>
      let s2 := { s1 with sandboxId := some pr.1, sandboxUrl := some pr.2, updatedAt := now }
      if ¬ env.healthyOk then
        let s3 := { s2 with
                    status := Status.error
                    error := some waitHealthyErrMsg
                    updatedAt := now }
        (Except.error waitHealthyErrMsg, s3, [s1, s3])
      else
        match env.createSessionResult with
        | Except.error e =>
          let s3 := { s2 with status := Status.error, error := some e, updatedAt := now }
          (Except.error e, s3, [s1, s3])
        | Except.ok ocid =>
          let s3 := { s2 with
                      opencodeSessionId := some ocid
                      status := Status.running
                      updatedAt := now }
          (Except.ok (), s3, [s1, s3])

/-- `handleResume` (`agent.ts` lines 1622-1628): the public command guards
on `status = paused ∧ snapshotId ≠ null` before delegating. -/
def handleResume (env : ResumeEnv) (now : Nat) (s : SessionState) : HandlerOut :=
  if s.status ≠ Status.paused ∨ s.snapshotId = none then
    (Except.error "Session is not paused", s, [])
  else handleResumeInternal env now s

/-- Error thrown by the Modal pause call: its stringified message and
whether that message contains `"Unprocessable Entity"` or `"422"`. -/
structure PauseErr where
  msg : String
  is422 : Bool
deriving Repr

/-- External outcome of the Modal `api-pause-sandbox` call. -/
structure PauseEnv where
  pauseResult : Except PauseErr String
deriving Repr

/-- Busy-guard message of `handlePause`. -/
def pauseBusyMsg : String :=
  "Cannot pause while processing a prompt. Please wait for completion or stop the session."

/-- `handlePause` (`agent.ts` lines 1536-1617).  Note that the catch block
swallows the error, so only the two guards reject. -/
def handlePause (env : PauseEnv) (now : Nat) (s : SessionState) : HandlerOut :=
  if s.status ≠ Status.running ∨ s.sandboxId = none then
    (Except.error "Session is not running", s, [])
  else if s.isProcessing then
    (Except.error pauseBusyMsg, s, [])
  else
    let s1 := { s with status := Status.starting, updatedAt := now }
    match env.pauseResult with
    | Except.ok snap =>
      let s2 := { s1 with
                  snapshotId := some snap
                  sandboxId := none
                  sandboxUrl := none
                  status := Status.paused
                  updatedAt := now }
      (Except.ok (), s2, [s1, s2])
    | Except.error e =>
      if e.is422 then
        let s2 := { s1 with
                    status := if s1.snapshotId.isSome then Status.paused else Status.idle
                    sandboxId := none
                    sandboxUrl := none
                    opencodeSessionId := none
                    updatedAt := now }
        (Except.ok (), s2, [s1, s2])
      else
        let s2 := { s1 with status := Status.error, error := some e.msg, updatedAt := now }
        (Except.ok (), s2, [s1, s2])

/-- `handleStop` (`agent.ts` lines 1715-1742): sandbox termination is
best-effort with errors swallowed, then sandbox refs are cleared and the
status set to `idle`. -/
def handleStop (now : Nat) (s : SessionState) : HandlerOut :=
  let s1 := { s with
              sandboxId := none
              sandboxUrl := none
              opencodeSessionId := none
              status := Status.idle
              updatedAt := now }
  (Except.ok (), s1, [s1])

/-- The `InitializeRequest` body (`agent.ts` lines 25-33), auth fields
omitted (they are stored under separate storage keys, not in the session
state). -/
structure InitRequest where
  sessionId : String
  repo : String
  userId : String
  selectedModel : Option String
  provider : Option String
deriving Repr

/-- External outcomes consumed by `createSandboxInBackground`: the Convex
GitHub-token fetch, the Modal `api-create-sandbox` call (returning
`(sandbox_id, tunnel_url)`), `waitForOpenCode`, and the OpenCode
`POST /session` call. -/
structure CreateEnv where
  gitHubTokenResult : Except String String
  createResult : Except String (String × String)
  healthyOk : Bool
  createSessionResult : Except String String
deriving Repr

/-- `createSandboxInBackground` (`agent.ts` lines 501-611).  Returns the
final state and the durable writes; the surrounding try/catch converts any
failure into `status = error` with the error text. -/
def createSandboxInBackground (env : CreateEnv) (now : Nat) (s : SessionState) :
    SessionState × List SessionState :=
  match env.gitHubTokenResult with
  | Except.error e =>
    let s' := { s with status := Status.error, error := some e, updatedAt := now }
    (s', [s'])
  | Except.ok _ =>
    match env.createResult with
    | Except.error e =>
      let s' := { s with status := Status.error, error := some e, updatedAt := now }
      (s', [s'])
    | Except.ok pr =>
      let s1 := { s with sandboxId := some pr.1, sandboxUrl := some pr.2, updatedAt := now }
      if ¬ env.healthyOk then
        let s' := { s1 with
                    status := Status.error
                    error := some waitHealthyErrMsg
                    updatedAt := now }
        (s', [s'])
      else
        match env.createSessionResult with
        | Except.error e =>
          let s' := { s1 with status := Status.error, error := some e, updatedAt := now }
          (s', [s'])
        | Except.ok ocid =>
          let s' := { s1 with
                      opencodeSessionId := some ocid
                      status := Status.running
                      updatedAt := now }
          (s', [s'])

/-- `initialize` (`agent.ts` lines 467-496) followed by its fire-and-forget
`createSandboxInBackground`.  The background task is the only writer until
it finishes (single-writer actor), so it is sequenced here directly after
the initial `starting` write. -/
def initSession (req : InitRequest) (env : CreateEnv) (now : Nat) (s : SessionState) :
    HandlerOut :=
  let s1 := { s with
              sessionId := req.sessionId
              repo := req.repo
              userId := some req.userId
              selectedModel := req.selectedModel
              provider := req.provider
              status := Status.starting
              createdAt := now
              updatedAt := now }
  let bg := createSandboxInBackground env now s1
  (Except.ok (), bg.1, s1 :: bg.2)

/-- WebSocket attach (`agent.ts` lines 336-364) together with the
`verifySandboxHealthOnConnect` background probe (lines 666-693), which runs
exactly when `status = running ∧ sandboxUrl ≠ null`.  `healthOk` is the
probe outcome. -/
def handleAttach (healthOk : Bool) (now : Nat) (s : SessionState) : HandlerOut :=
  if s.status = Status.running ∧ s.sandboxUrl ≠ none then
    if healthOk then (Except.ok (), s, [])
    else
      let s1 := { s with
                  status := if s.snapshotId.isSome then Status.paused else Status.idle
                  sandboxId := none
                  sandboxUrl := none
                  opencodeSessionId := none
                  updatedAt := now }
      (Except.ok (), s1, [s1])
  else (Except.ok (), s, [])

/-! ## Prompt pipeline (`agent.ts` lines 732-1373) -/

/-- An error thrown inside the prompt try block.  `timeoutKind` is the
classification at lines 1251-1254: whether the stringified message contains
`"524"`, `"TimeoutError"` or `"aborted"`. -/
structure PromptErrE where
  msg : String
  timeoutKind : Bool
deriving DecidableEq, Repr

/-- One entry of the final `/session/:id/message` fetch
(`{info: {id, role}, parts}`), keeping the fields the code reads. -/
structure FetchedMsg where
  role : String
  parts : List OpenCodePart
deriving Repr

/-- One entry of the post-timeout recovery fetch (`messagesData.messages`),
whose `parts` the code pushes into the committed `Message` without any
normalization or echo filtering — hence they appear here already as the
`MessagePart`s the client will see. -/
structure RecoveryMsg where
  role : String
  parts : List MsgPart
deriving Repr

/-- All external outcomes consumed by one `handlePrompt` invocation, plus
the `crypto.randomUUID()` values it draws and the `Date.now()` stamp used
for message timestamps. -/
structure PromptEnv where
  healthOk : Bool
  resumeEnv : ResumeEnv
  events : List RawEvent
  postResult : Except PromptErrE Unit
  fetchResult : Except PromptErrE (Option (List FetchedMsg))
  recoveryResult : Option (List RecoveryMsg)
  snapshotResult : Option String
  userMsgId : String
  assistantMsgId : String
  recoveryMsgId : String
  noteMsgId : String
  now : Nat
deriving Repr

/-- Busy-guard message of `handlePrompt` (line 735). -/
def promptBusyMsg : String :=
  "A prompt is already being processed. Please wait for it to complete."

/-- The literal system note appended on a timeout with partial content
(`agent.ts` line 1320). -/
def timeoutNoteText : String :=
  "⚠️ Response timed out. Partial content shown above. The AI may still be processing - try refreshing in a moment."

/-- `handleAutoSnapshot` (`agent.ts` lines 1482-1531): only acts when the
session is running with a sandbox and not processing; stores the snapshot
id in memory on success (no durable write), swallows failures. -/
def handleAutoSnapshot (snapRes : Option String) (now : Nat) (s : SessionState) : SessionState :=
  if s.status = Status.running ∧ s.sandboxId ≠ none ∧ ¬ s.isProcessing then
    match snapRes with
    | some snap => { s with snapshotId := some snap, updatedAt := now }
    | none => s
  else s

/-- Normalization of the authoritative parts of the last assistant message
fetched at finalize time (`agent.ts` lines 1183-1194), threading the
fresh-uuid counter used by `extractToolCall`. -/
def normalizeFetched (userPromptText : String) : Nat → List OpenCodePart → List MsgPart × Nat
  | ctr, [] => ([], ctr)
  | ctr, p :: ps =>
    if p.ptype = "text" ∧ (jsOr p.text none).isSome then
      if jsTrim (p.text.getD "") ≠ userPromptText ∧ (jsTrim (p.text.getD "")).length > 0 then
        let rest := normalizeFetched userPromptText ctr ps
        (MsgPart.text (p.text.getD "") :: rest.1, rest.2)
      else normalizeFetched userPromptText ctr ps
    else if isToolPart p then
      let tc := extractToolCall ("uuid-" ++ toString ctr) p
      let rest := normalizeFetched userPromptText (ctr + 1) ps
      (MsgPart.tool tc :: rest.1, rest.2)
    else normalizeFetched userPromptText ctr ps

/-- The authoritative parts of the finalize step (`agent.ts` lines
1161-1196): from the final `/session/:id/message` fetch (when it succeeded)
take the last assistant message and normalize its parts; a failed or
assistant-less fetch yields zero parts. -/
def fetchedFinalParts (u : String) (ctr : Nat) (fetched : Option (List FetchedMsg)) :
    List MsgPart :=
  match fetched with
  | none => []
  | some msgs =>
    match (msgs.filter fun m => m.role = "assistant").getLast? with
    | none => []
    | some lastA => (normalizeFetched u ctr lastA.parts).1

/-- The initial streaming context of one prompt (empty tracker, no current
text part, `lastSaveTime = 0`). -/
def initStreamCtx (s : SessionState) : StreamCtx :=
  { tracker := [], currentTextPartId := none, uuidCtr := 0, lastSaveTime := 0,
    sess := s, writes := [], frames := [] }

/-- The SSE capture of one prompt: fold the event callback over the events
delivered before the subscription is cancelled. -/
def streamAfterEvents (text : String) (env : PromptEnv) (s : SessionState) : StreamCtx :=
  env.events.foldl (processEvent (jsTrim text) env.assistantMsgId) (initStreamCtx s)

/-- The recovery-fetch lookup of the catch block (`agent.ts` lines
1256-1276): only on a timeout-kind error with live sandbox refs, and only
when the fetched `messages` contain an assistant entry. -/
def promptRecoveryMsg (env : PromptEnv) (pe : PromptErrE) (sc : SessionState) :
    Option RecoveryMsg :=
  if pe.timeoutKind ∧ sc.sandboxUrl ≠ none ∧ sc.opencodeSessionId ≠ none then
    match env.recoveryResult with
    | some msgs => (msgs.filter fun m => m.role = "assistant").getLast?
    | none => none
  else none

/-- `agent.ts` lines 1309-1310: whether the in-progress streaming message
has any parts to preserve. -/
def hasStreamingContent (sc : SessionState) : Bool :=
  match sc.streamingMessage with
  | some m => decide (m.parts.length > 0)
  | none => false

/-- The system note appended on a timeout with partial content. -/
def noteMessage (env : PromptEnv) : Message :=
  { id := env.noteMsgId, role := Role.system,
    parts := [MsgPart.text timeoutNoteText], timestamp := env.now }

/-- The system message appended on a non-timeout error (or a timeout with
no partial content). -/
def promptErrMessage (env : PromptEnv) (pe : PromptErrE) : Message :=
  { id := env.noteMsgId, role := Role.system,
    parts := [MsgPart.text ("Error: " ++ pe.msg)], timestamp := env.now }

/-- The catch block of `handlePrompt` (`agent.ts` lines 1247-1372): on a
timeout-kind error first try the recovery fetch; otherwise preserve partial
streaming content with the timeout note, or append a system error message.
Returns the final state and the durable writes of the block. -/
def promptCatch (env : PromptEnv) (pe : PromptErrE) (sc : SessionState) :
    SessionState × List SessionState :=
  match promptRecoveryMsg env pe sc with
  | some lastA =>
    let completed : Message :=
      { id := env.recoveryMsgId, role := Role.assistant, parts := lastA.parts,
        timestamp := env.now }
    let s' := { sc with
                messages := sc.messages ++ [completed]
                streamingMessage := none
                isProcessing := false
                updatedAt := env.now }
    (handleAutoSnapshot env.snapshotResult env.now s', [s'])
  | none =>
    let s' :=
      if pe.timeoutKind && hasStreamingContent sc then
        { sc with
          messages := sc.messages ++ sc.streamingMessage.toList ++ [noteMessage env]
          streamingMessage := none
          isProcessing := false
          updatedAt := env.now }
      else
        { sc with
          messages := sc.messages ++ [promptErrMessage env pe]
          streamingMessage := none
          isProcessing := false
          updatedAt := env.now }
    (if hasStreamingContent sc then handleAutoSnapshot env.snapshotResult env.now s' else s',
      [s'])

/-- The try/catch body of `handlePrompt` after the sandbox is known to be
reachable (`agent.ts` lines 827-1372): SSE capture, prompt POST, final
fetch, selection of the committed parts, commit, auto-snapshot; every
failure is handled by `promptCatch`, so this block never rethrows.  Returns
the final state, the durable writes, and the streaming-frame snapshots. -/
def promptTryCatch (text : String) (env : PromptEnv) (s : SessionState) :
    SessionState × List SessionState × List (List MsgPart) :=
  match s.opencodeSessionId with
  | none =>
    let r := promptCatch env { msg := "OpenCode session not initialized", timeoutKind := false } s
    (r.1, r.2, [])
  | some _ =>
    let ctx := streamAfterEvents text env s
    match env.postResult with
    | Except.error pe =>
      let r := promptCatch env pe ctx.sess
      (r.1, ctx.writes ++ r.2, ctx.frames)
    | Except.ok () =>
      match env.fetchResult with
      | Except.error pe =>
        let r := promptCatch env pe ctx.sess
        (r.1, ctx.writes ++ r.2, ctx.frames)
      | Except.ok fetched =>
        let streamingParts := getPartsInOrder ctx.tracker
        let finalParts := chooseFinalParts streamingParts
          (fetchedFinalParts (jsTrim text) ctx.uuidCtr fetched)
        let assistantMessage : Message :=
          { id := env.assistantMsgId, role := Role.assistant, parts := finalParts,
            timestamp := env.now }
        let s' := { ctx.sess with
                    messages := ctx.sess.messages ++ [assistantMessage]
                    streamingMessage := none
                    isProcessing := false
                    updatedAt := env.now }
        (handleAutoSnapshot env.snapshotResult env.now s', ctx.writes ++ [s'], ctx.frames)

/-- The reachability / auto-resume step of `handlePrompt`
(`agent.ts` lines 763-818), entered after the user message was committed. -/
def promptReachability (env : PromptEnv) (s1 : SessionState) :
    Except String Unit × SessionState × List SessionState :=
  match s1.status with
  | Status.running =>
    if s1.sandboxUrl.isSome ∧ env.healthOk then (Except.ok (), s1, [])
    else if s1.snapshotId.isSome then
      let s2 := { s1 with
                  status := Status.paused
                  sandboxId := none
                  sandboxUrl := none
                  opencodeSessionId := none
                  updatedAt := env.now }
      let r := handleResumeInternal env.resumeEnv env.now s2
      (r.1, r.2.1, s2 :: r.2.2)
    else
      let s2 := { s1 with
                  status := Status.idle
                  sandboxId := none
                  sandboxUrl := none
                  opencodeSessionId := none
                  error := some "Sandbox timed out and no snapshot available"
                  updatedAt := env.now }
      (Except.error "Sandbox has timed out. Please start a new session.", s2, [s2])
  | Status.paused =>
    if s1.snapshotId.isSome then handleResumeInternal env.resumeEnv env.now s1
    else (Except.error "Session is not running and has no snapshot to resume from", s1, [])
  | Status.idle =>
    if s1.snapshotId.isSome then handleResumeInternal env.resumeEnv env.now s1
    else (Except.error "Session is not running and has no snapshot to resume from", s1, [])
  | Status.error =>
    if s1.snapshotId.isSome then handleResumeInternal env.resumeEnv env.now s1
    else (Except.error "Session is not running and has no snapshot to resume from", s1, [])
  | Status.starting =>
    (Except.error "Session is still starting, please wait", s1, [])

/-- The user message built at the start of the prompt pipeline
(`agent.ts` lines 746-751). -/
def userMessageOf (text : String) (env : PromptEnv) : Message :=
  { id := env.userMsgId, role := Role.user, parts := [MsgPart.text text],
    timestamp := env.now }

/-- Step 2 of the prompt pipeline (`agent.ts` lines 745-759): build the
user message, append it to `messages`, and set `isProcessing` — before any
reachability check or resume. -/
def appendUserMessage (text : String) (env : PromptEnv) (s : SessionState) : SessionState :=
  { s with
    messages := s.messages ++ [userMessageOf text env]
    isProcessing := true
    updatedAt := env.now }

/-- `handlePrompt` (`agent.ts` lines 732-1373): busy guard, user-message
commit, reachability / auto-resume, then the try/catch pipeline.  The
fourth component is the list of `streaming` frame snapshots emitted for
this prompt. -/
def handlePrompt (text : String) (env : PromptEnv) (s : SessionState) :
    Except String Unit × SessionState × List SessionState × List (List MsgPart) :=
  if s.isProcessing then (Except.error promptBusyMsg, s, [], [])
  else
    match (promptReachability env (appendUserMessage text env s)).1 with
    | Except.error e =>
      (Except.error e, (promptReachability env (appendUserMessage text env s)).2.1,
        appendUserMessage text env s :: (promptReachability env (appendUserMessage text env s)).2.2,
        [])
    | Except.ok _ =>
      if (promptReachability env (appendUserMessage text env s)).2.1.sandboxUrl = none then
        (Except.error "Sandbox URL not available",
          (promptReachability env (appendUserMessage text env s)).2.1,
          appendUserMessage text env s ::
            (promptReachability env (appendUserMessage text env s)).2.2,
          [])
      else
        (Except.ok (),
          (promptTryCatch text env (promptReachability env (appendUserMessage text env s)).2.1).1,
          (appendUserMessage text env s ::
              (promptReachability env (appendUserMessage text env s)).2.2) ++
            (promptTryCatch text env
              (promptReachability env (appendUserMessage text env s)).2.1).2.1,
          (promptTryCatch text env
            (promptReachability env (appendUserMessage text env s)).2.1).2.2)

/-! ## Command sequences

A public command applied to the actor, carrying the outcomes of all
external calls the corresponding handler performs. -/

inductive Cmd
  | initCmd (req : InitRequest) (env : CreateEnv) (now : Nat)
  | promptCmd (text : String) (env : PromptEnv)
  | pauseCmd (env : PauseEnv) (now : Nat)
  | resumeCmd (env : ResumeEnv) (now : Nat)
  | stopCmd (now : Nat)
  | attachCmd (healthOk : Bool) (now : Nat)

/-- Dispatch one command to its handler; streaming frames are dropped at
this level (they are examined by the per-prompt theorems). -/
def step : Cmd → SessionState → HandlerOut
  | Cmd.initCmd req env now, s => initSession req env now s
  | Cmd.promptCmd text env, s =>
    let r := handlePrompt text env s
    (r.1, r.2.1, r.2.2.1)
  | Cmd.pauseCmd env now, s => handlePause env now s
  | Cmd.resumeCmd env now, s => handleResume env now s
  | Cmd.stopCmd now, s => handleStop now s
  | Cmd.attachCmd healthOk now, s => handleAttach healthOk now s

/-- Whether a command is a `prompt`. -/
def isPromptCmd : Cmd → Bool
  | Cmd.promptCmd _ _ => true
  | _ => false

/-- The state after running a command list. -/
def runState (s : SessionState) : List Cmd → SessionState
  | [] => s
  | c :: cs => runState (step c s).2.1 cs

/-- The session state observed after each command of the list. -/
def statesAfter (s : SessionState) : List Cmd → List SessionState
  | [] => []
  | c :: cs =>
    let s' := (step c s).2.1
    s' :: statesAfter s' cs

/-- All durable writes of the `"session"` key produced while running a
command list. -/
def writesOf (s : SessionState) : List Cmd → List SessionState
  | [] => []
  | c :: cs =>
    let r := step c s
    r.2.2 ++ writesOf r.2.1 cs

/-- The results of the prompt commands of a run, in order. -/
def promptResults (s : SessionState) : List Cmd → List (Except String Unit)
  | [] => []
  | c :: cs =>
    let r := step c s
    (if isPromptCmd c then [r.1] else []) ++ promptResults r.2.1 cs

/-- Whether a handler result is a normal completion. -/
def isOkResult : Except String Unit → Bool
  | Except.ok _ => true
  | Except.error _ => false

/-- Whether every prompt command of a run completes without throwing. -/
def promptsAllOk (s : SessionState) : List Cmd → Bool
  | [] => true
  | c :: cs =>
    let r := step c s
    (!isPromptCmd c || isOkResult r.1) && promptsAllOk r.2.1 cs

/-! ## Invariants -/

/-- Invariant 3 of §3 of the specification: a processing session is
running. -/
def procInv (s : SessionState) : Prop :=
  s.isProcessing = true → s.status = Status.running

instance (s : SessionState) : Decidable (procInv s) := by
  unfold procInv
  infer_instance

/-- Invariants 1 and 2 of §3 of the specification: a running session has a
sandbox, a tunnel URL and an agent session; a paused session has a snapshot
and no sandbox refs. -/
def refInv (s : SessionState) : Prop :=
  (s.status = Status.running →
    s.sandboxId ≠ none ∧ s.sandboxUrl ≠ none ∧ s.opencodeSessionId ≠ none) ∧
  (s.status = Status.paused →
    s.snapshotId ≠ none ∧ s.sandboxId = none ∧ s.sandboxUrl = none)

instance (s : SessionState) : Decidable (refInv s) := by
  unfold refInv
  infer_instance

/-! ## Theorems for C7 -/

/-- Unfolding of `withRetry` at `maxRetries = 3`: at most three attempts,
with 1 s and 2 s pauses between them; the 4 s value of the backoff formula
is computed only for an attempt index that is never reached. -/
theorem withRetry3_spec {α : Type} (op : Nat → Except JsThrown α) :
    withRetry op 3 =
      match op 0 with
      | Except.ok v => (some v, 1, [])
      | Except.error e0 =>
        if isRetryableErr e0 then
          match op 1 with
          | Except.ok v => (some v, 2, [1000])
          | Except.error e1 =>
            if isRetryableErr e1 then
              match op 2 with
              | Except.ok v => (some v, 3, [1000, 2000])
              | Except.error _ => (none, 3, [1000, 2000])
            else (none, 2, [1000])
        else (none, 1, []) := by
  show withRetryGo op 3 0 3 = _
  cases h0 : op 0 with
  | ok v => simp [withRetryGo, h0]
  | error e0 =>
    cases hr0 : isRetryableErr e0 with
    | false => simp [withRetryGo, h0, hr0]
    | true =>
      cases h1 : op 1 with
      | ok v => simp [withRetryGo, h0, h1, hr0]
      | error e1 =>
        cases hr1 : isRetryableErr e1 with
        | false => simp [withRetryGo, h0, h1, hr0, hr1]
        | true =>
          cases h2 : op 2 with
          | ok v => simp [withRetryGo, h0, h1, h2, hr0, hr1]
          | error e2 => simp [withRetryGo, h0, h1, h2, hr0, hr1]

/-- C7 (corrected): `withRetry` with `maxRetries = 3` performs at most
three attempts, sleeps exactly the prefix `[1 s, 2 s]` of the backoff
schedule determined by the number of attempts (a 4 s delay never occurs),
returns `none` instead of throwing when every attempt fails, and treats a
thrown `Response` with a 4xx status as non-retryable — but the wrapped DB
operations rethrow HTTP failures as `Error` values, so a 4xx response from
a wrapped DB call is retried (see the counterexample). -/
theorem withRetry_bounded_backoff {α : Type} (op : Nat → Except JsThrown α) :
    (withRetry op 3).2.1 ≤ 3 ∧
    (withRetry op 3).2.2 = List.take ((withRetry op 3).2.1 - 1) [1000, 2000] ∧
    ((∀ k v, op k ≠ Except.ok v) → (withRetry op 3).1 = none) ∧
    (∀ st, op 0 = Except.error (JsThrown.response st) → st < 500 →
      (withRetry op 3).2.1 = 1 ∧ (withRetry op 3).1 = none) := by
  rw [withRetry3_spec]
  cases h0 : op 0 with
  | ok v =>
    refine ⟨by simp, by simp, fun h => absurd h0 (h 0 v), fun st hst _ => by simp_all⟩
  | error e0 =>
    cases hr0 : isRetryableErr e0 with
    | false =>
      refine ⟨by simp [hr0], by simp [hr0], fun _ => by simp [hr0], fun st hst hlt => by
        simp [hr0]⟩
    | true =>
      have h4xx : ∀ st, Except.error (ε := JsThrown) (α := α) e0
          = Except.error (JsThrown.response st) → st < 500 → False := by
        intro st hst hlt
        injection hst with he
        subst he
        simp [isRetryableErr] at hr0
        omega
      cases h1 : op 1 with
      | ok v =>
        exact ⟨by simp [hr0], by simp [hr0], fun h => absurd h1 (h 1 v),
          fun st hst hlt => absurd hlt (by intro h; exact h4xx st hst h)⟩
      | error e1 =>
        cases hr1 : isRetryableErr e1 with
        | false =>
          exact ⟨by simp [hr0, hr1], by simp [hr0, hr1], fun _ => by simp [hr0, hr1],
            fun st hst hlt => absurd hlt (by intro h; exact h4xx st hst h)⟩
        | true =>
          cases h2 : op 2 with
          | ok v =>
            exact ⟨by simp [hr0, hr1], by simp [hr0, hr1], fun h => absurd h2 (h 2 v),
              fun st hst hlt => absurd hlt (by intro h; exact h4xx st hst h)⟩
          | error e2 =>
            exact ⟨by simp [hr0, hr1], by simp [hr0, hr1], fun _ => by simp [hr0, hr1],
              fun st hst hlt => absurd hlt (by intro h; exact h4xx st hst h)⟩

/-- Witness for the C7 theorem at a concrete operation: an operation that
succeeds at the second attempt gives 2 attempts and a single 1 s delay. -/
theorem withRetry_bounded_backoff_witness :
    (withRetry (fun k => if k = 0 then Except.error (JsThrown.jsError "boom")
      else Except.ok 7) 3).2.1 ≤ 3 ∧
    (withRetry (fun k => if k = 0 then Except.error (JsThrown.jsError "boom")
      else Except.ok 7) 3).2.2 =
      List.take ((withRetry (fun k => if k = 0 then Except.error (JsThrown.jsError "boom")
        else Except.ok 7) 3).2.1 - 1) [1000, 2000] := by
  have h := withRetry_bounded_backoff
    (fun k => if k = 0 then Except.error (JsThrown.jsError "boom") else Except.ok 7)
  exact ⟨h.1, h.2.1⟩

/-- Counterexample to C7 as stated: a wrapped DB operation whose HTTP
response is a 400 throws an `Error` (not a `Response`), so it is attempted
all 3 times — 4xx failures of the wrapped DB operations are retried — and
the delays slept are 1 s and 2 s; no 4 s delay occurs. -/
theorem withRetry_4xx_retried_counterexample :
    (withRetry (fun _ => convexDbOp (400, "Bad Request")) 3).2.1 = 3 ∧
    (withRetry (fun _ => convexDbOp (400, "Bad Request")) 3).2.2 = [1000, 2000] ∧
    ¬ 4000 ∈ (withRetry (fun _ => convexDbOp (400, "Bad Request")) 3).2.2 := by
  decide

/-! ## Theorems for C8 -/

/-- A state carrying an in-progress streaming message, for the C8
counterexample. -/
def c8StreamingMsg : Message :=
  { id := "m-stream", role := Role.assistant, parts := [MsgPart.text "partial"], timestamp := 5 }

/-- Session state with a pending `streamingMessage`. -/
def c8State : SessionState :=
  { freshState 0 with streamingMessage := some c8StreamingMsg }

/-- Counterexample to C8 as stated: the client view produced by
`getStateForClient` (used by `/state`, WebSocket attach, and every `state`
frame) still contains the raw `streamingMessage` field — the object spread
does not strip it. -/
theorem getStateForClient_keeps_streamingMessage :
    (getStateForClient c8State).streamingMessage = some c8StreamingMsg ∧
    (getStateForClient c8State).streamingMessage ≠ none := by
  decide

/-- C8 (corrected): the client view equals the persisted state with the
streaming message (when present) appended to `messages`, every other field
unchanged — including the raw `streamingMessage` field, which is *not*
removed from the view. -/
theorem getStateForClient_spec (s : SessionState) :
    (getStateForClient s).messages = s.messages ++ s.streamingMessage.toList ∧
    (getStateForClient s).streamingMessage = s.streamingMessage ∧
    (getStateForClient s).status = s.status ∧
    (getStateForClient s).isProcessing = s.isProcessing ∧
    (getStateForClient s).error = s.error ∧
    (getStateForClient s).sessionId = s.sessionId ∧
    (getStateForClient s).sandboxId = s.sandboxId ∧
    (getStateForClient s).sandboxUrl = s.sandboxUrl ∧
    (getStateForClient s).snapshotId = s.snapshotId ∧
    (getStateForClient s).opencodeSessionId = s.opencodeSessionId := by
  cases h : s.streamingMessage with
  | none => simp [getStateForClient, h]
  | some m => simp [getStateForClient, h]

/-! ## Theorems for C4 -/

/-- The specification's wording of the exceptional condition of the
finalize step: the authoritative fetch yielded zero parts, or it yielded
zero tool parts while the streamed parts contain at least one tool part. -/
def fetchIncomplete (streamingParts finalParts : List MsgPart) : Prop :=
  finalParts = [] ∨
    ((∀ p ∈ finalParts, ¬ isToolMsgPart p = true) ∧ ∃ p ∈ streamingParts, isToolMsgPart p = true)

/-- C4 (confirmed): the parts committed by the finalize step equal the
authoritative parts of the final fetch, except exactly when the fetch
yielded zero parts or it yielded zero tool parts while streaming saw at
least one — in which case the streamed parts are committed instead. -/
theorem chooseFinalParts_spec (streamingParts finalParts : List MsgPart) :
    (fetchIncomplete streamingParts finalParts →
      chooseFinalParts streamingParts finalParts = streamingParts) ∧
    (¬ fetchIncomplete streamingParts finalParts →
      chooseFinalParts streamingParts finalParts = finalParts) := by
  have hzero : finalParts.length = 0 ↔ finalParts = [] := List.length_eq_zero
  have hcf : countToolParts finalParts = 0 ↔ ∀ p ∈ finalParts, ¬ isToolMsgPart p = true := by
    simp [countToolParts, List.length_eq_zero, List.filter_eq_nil_iff]
  have hcs : countToolParts streamingParts > 0 ↔ ∃ p ∈ streamingParts, isToolMsgPart p = true := by
    simp [countToolParts, List.length_pos, Ne, List.filter_eq_nil_iff]
  constructor
  · intro h
    unfold chooseFinalParts
    rcases h with h | ⟨hno, hyes⟩
    · simp [h]
    · rw [if_pos]
      exact Or.inr ⟨hcf.mpr hno, hcs.mpr hyes⟩
  · intro h
    unfold chooseFinalParts
    rw [if_neg]
    intro hc
    rcases hc with hc | ⟨hc1, hc2⟩
    · exact h (Or.inl (hzero.mp hc))
    · exact h (Or.inr ⟨hcf.mp hc1, hcs.mp hc2⟩)

/-- Witness for the C4 theorem: with an empty fetch the streamed parts are
committed; with a tool-bearing fetch the authoritative parts are kept. -/
theorem chooseFinalParts_spec_witness :
    chooseFinalParts [MsgPart.text "streamed"] [] = [MsgPart.text "streamed"] ∧
    chooseFinalParts [] [MsgPart.text "final"] = [MsgPart.text "final"] := by
  constructor
  · exact (chooseFinalParts_spec [MsgPart.text "streamed"] []).1 (Or.inl rfl)
  · exact (chooseFinalParts_spec [] [MsgPart.text "final"]).2 (by
      intro h
      rcases h with h | ⟨_, p, hp, _⟩
      · cases h
      · cases hp)

/-! ## Theorems for C9 -/

/-- Number of accepted requests of user `u` in a run log. -/
def acceptedCount (u : String) (log : List (RLReq × RLResult)) : Nat :=
  (log.filter fun e => e.2.allowed ∧ e.1.user = u).length

/-- The counter currently held for user `u`. -/
def currentCount (u : String) (m : RLMap) : Nat :=
  match rlLookup u m with
  | some r => r.count
  | none => 0

/-- Rate-limiter map invariant inside one fixed window anchored at `t0`:
every record's count is within the limit and expires no earlier than
`t0 + 60000`. -/
def rlInv (t0 : Nat) (m : RLMap) : Prop :=
  ∀ u r, rlLookup u m = some r → r.count ≤ 100 ∧ t0 + 60000 ≤ r.resetAt

theorem rlLookup_set_self (u : String) (r : RLRecord) (m : RLMap) :
    rlLookup u (rlSet u r m) = some r := by
  induction m with
  | nil => simp [rlSet, rlLookup]
  | cons kv rest ih =>
    by_cases h : kv.1 = u
    · simp [rlSet, rlLookup, h]
    · simpa [rlSet, rlLookup, h] using ih

theorem rlLookup_set_other (u v : String) (hne : v ≠ u) (r : RLRecord) (m : RLMap) :
    rlLookup v (rlSet u r m) = rlLookup v m := by
  have hne' : u ≠ v := Ne.symm hne
  induction m with
  | nil => simp [rlSet, rlLookup, hne']
  | cons kv rest ih =>
    by_cases h : kv.1 = u
    · simp [rlSet, rlLookup, h, hne']
    · by_cases h2 : kv.1 = v
      · simp [rlSet, rlLookup, h, h2, hne]
      · simpa [rlSet, rlLookup, h, h2] using ih

theorem checkRateLimit_eq_new (now : Nat) (u : String) (m : RLMap)
    (hl : rlLookup u m = none) :
    checkRateLimit now u m =
      ({ allowed := true, remaining := rlMax - 1, resetAt := now + rlWindowMs },
        rlSet u { count := 1, resetAt := now + rlWindowMs } m) := by
  simp [checkRateLimit, hl]

theorem checkRateLimit_eq_full (now : Nat) (u : String) (m : RLMap) (r : RLRecord)
    (hl : rlLookup u m = some r) (hnr : ¬ now > r.resetAt) (hfull : r.count ≥ rlMax) :
    checkRateLimit now u m = ({ allowed := false, remaining := 0, resetAt := r.resetAt }, m) := by
  simp [checkRateLimit, hl, hnr, hfull]

theorem checkRateLimit_eq_incr (now : Nat) (u : String) (m : RLMap) (r : RLRecord)
    (hl : rlLookup u m = some r) (hnr : ¬ now > r.resetAt) (hfull : ¬ r.count ≥ rlMax) :
    checkRateLimit now u m =
      ({ allowed := true, remaining := rlMax - (r.count + 1), resetAt := r.resetAt },
        rlSet u { count := r.count + 1, resetAt := r.resetAt } m) := by
  simp [checkRateLimit, hl, hnr, hfull]

theorem rlInv_set (t0 : Nat) (u : String) (r : RLRecord) (m : RLMap)
    (hinv : rlInv t0 m) (hc : r.count ≤ 100) (hr : t0 + 60000 ≤ r.resetAt) :
    rlInv t0 (rlSet u r m) := by
  intro v rv hv
  by_cases hvu : v = u
  · subst hvu
    rw [rlLookup_set_self] at hv
    cases hv
    exact ⟨hc, hr⟩
  · rw [rlLookup_set_other u v hvu] at hv
    exact hinv v rv hv

theorem rlRun_cons (m : RLMap) (r : RLReq) (rest : List RLReq) :
    rlRun m (r :: rest) =
      ((r, (checkRateLimit r.time r.user m).1) ::
          (rlRun (checkRateLimit r.time r.user m).2 rest).1,
        (rlRun (checkRateLimit r.time r.user m).2 rest).2) :=
  rfl

theorem acceptedCount_cons (u : String) (e : RLReq × RLResult) (log : List (RLReq × RLResult)) :
    acceptedCount u (e :: log) =
      (if e.2.allowed = true ∧ e.1.user = u then 1 else 0) + acceptedCount u log := by
  by_cases h : e.2.allowed = true ∧ e.1.user = u
  · simp [acceptedCount, List.filter_cons, h]
    omega
  · simp [acceptedCount, List.filter_cons, h]

/-- One limiter step inside the window `[t0, t0 + 60000]`: the invariant is
preserved, the addressed user's counter grows by one exactly on acceptance
and stays within 100, and other users' counters are untouched. -/
theorem checkRateLimit_step (t0 now : Nat) (u : String) (m : RLMap)
    (hinv : rlInv t0 m) (hlo : t0 ≤ now) (hhi : now ≤ t0 + 60000) :
    rlInv t0 (checkRateLimit now u m).2 ∧
    currentCount u (checkRateLimit now u m).2 =
      (if (checkRateLimit now u m).1.allowed then currentCount u m + 1 else currentCount u m) ∧
    currentCount u (checkRateLimit now u m).2 ≤ 100 ∧
    (∀ v, v ≠ u → currentCount v (checkRateLimit now u m).2 = currentCount v m) := by
  cases hl : rlLookup u m with
  | none =>
    rw [checkRateLimit_eq_new now u m hl]
    refine ⟨rlInv_set t0 u _ m hinv (by simp) (by simp [rlWindowMs]; omega), ?_, ?_, ?_⟩
    · simp [currentCount, rlLookup_set_self, hl]
    · simp [currentCount, rlLookup_set_self]
    · intro v hv
      simp [currentCount, rlLookup_set_other u v hv]
  | some r =>
    have hb := hinv u r hl
    have hnr : ¬ now > r.resetAt := by omega
    by_cases hfull : r.count ≥ rlMax
    · rw [checkRateLimit_eq_full now u m r hl hnr hfull]
      refine ⟨hinv, ?_, ?_, ?_⟩
      · simp [currentCount, hl]
      · simp [currentCount, hl]
        omega
      · intro v hv
        rfl
    · rw [checkRateLimit_eq_incr now u m r hl hnr hfull]
      have hlt : r.count < 100 := by
        simp [rlMax] at hfull
        exact hfull
      refine ⟨rlInv_set t0 u _ m hinv (by simp; omega) (by simp; omega), ?_, ?_, ?_⟩
      · simp [currentCount, rlLookup_set_self, hl]
      · simp [currentCount, rlLookup_set_self]
        omega
      · intro v hv
        simp [currentCount, rlLookup_set_other u v hv]

/-- Accounting over a whole run inside one window: accepted requests of `u`
are exactly the growth of `u`'s counter, and the invariant is maintained. -/
theorem rlRun_count (t0 : Nat) (u : String) (reqs : List RLReq)
    (hlo : ∀ r ∈ reqs, t0 ≤ r.time) (hhi : ∀ r ∈ reqs, r.time ≤ t0 + 60000) :
    ∀ m, rlInv t0 m →
      acceptedCount u (rlRun m reqs).1 + currentCount u m = currentCount u (rlRun m reqs).2 ∧
      rlInv t0 (rlRun m reqs).2 ∧ currentCount u (rlRun m reqs).2 ≤ 100 := by
  induction reqs with
  | nil =>
    intro m hm
    refine ⟨by simp [rlRun, acceptedCount], hm, ?_⟩
    cases hl : rlLookup u m with
    | none => simp [rlRun, currentCount, hl]
    | some r =>
      have := (hm u r hl).1
      simp [rlRun, currentCount, hl]
      omega
  | cons r rest ih =>
    intro m hm
    have hstep := checkRateLimit_step t0 r.time r.user m hm
      (hlo r (by simp)) (hhi r (by simp))
    have hlo' : ∀ q ∈ rest, t0 ≤ q.time := fun q hq => hlo q (by simp [hq])
    have hhi' : ∀ q ∈ rest, q.time ≤ t0 + 60000 := fun q hq => hhi q (by simp [hq])
    have ihm := (ih hlo' hhi') (checkRateLimit r.time r.user m).2 hstep.1
    have hr1 : (rlRun m (r :: rest)).1 =
        (r, (checkRateLimit r.time r.user m).1) ::
          (rlRun (checkRateLimit r.time r.user m).2 rest).1 := rfl
    have hr2 : (rlRun m (r :: rest)).2 = (rlRun (checkRateLimit r.time r.user m).2 rest).2 := rfl
    rw [hr1, hr2, acceptedCount_cons]
    refine ⟨?_, ihm.2.1, ihm.2.2⟩
    have h1 := ihm.1
    by_cases huser : r.user = u
    · subst huser
      by_cases hall : (checkRateLimit r.time r.user m).1.allowed = true
      · have hcur := hstep.2.1
        rw [if_pos hall] at hcur
        rw [if_pos ⟨hall, rfl⟩]
        omega
      · have hcur := hstep.2.1
        rw [if_neg hall] at hcur
        rw [if_neg fun hc => hall hc.1]
        omega
    · have hcur := hstep.2.2.2 u fun h => huser h.symm
      rw [if_neg fun hc => huser hc.2]
      omega

/-- C9 (corrected): the limiter enforces a fixed, not rolling, 60-second
window.  For every request sequence confined to one window span
`[t0, t0 + 60000]` and started from an empty limiter, each user has at most
100 accepted requests; one user's requests never touch another user's
record; and an over-limit request is answered with `allowed = false` and
the window's reset time, leaving the limiter state unchanged (the
middleware then returns 429 without dispatching any session command). -/
theorem rateLimit_fixed_window (t0 : Nat) (u : String) (reqs : List RLReq)
    (hlo : ∀ r ∈ reqs, t0 ≤ r.time) (hhi : ∀ r ∈ reqs, r.time ≤ t0 + 60000) :
    acceptedCount u (rlRun ([] : RLMap) reqs).1 ≤ 100 ∧
    (∀ now v m w, w ≠ v → rlLookup w (checkRateLimit now v m).2 = rlLookup w m) ∧
    (∀ now v m r, rlLookup v m = some r → ¬ now > r.resetAt → r.count ≥ rlMax →
      checkRateLimit now v m = ({ allowed := false, remaining := 0, resetAt := r.resetAt }, m)) := by
  refine ⟨?_, ?_, ?_⟩
  · have hrun := rlRun_count t0 u reqs hlo hhi ([] : RLMap) (by intro v r h; cases h)
    have h0 : currentCount u ([] : RLMap) = 0 := by simp [currentCount, rlLookup]
    omega
  · intro now v m w hw
    cases hl : rlLookup v m with
    | none => simp [checkRateLimit, hl, rlLookup_set_other v w hw]
    | some r =>
      by_cases hnr : now > r.resetAt
      · simp [checkRateLimit, hl, hnr, rlLookup_set_other v w hw]
      · by_cases hfull : r.count ≥ rlMax
        · simp [checkRateLimit, hl, hnr, hfull]
        · simp [checkRateLimit, hl, hnr, hfull, rlLookup_set_other v w hw]
  · intro now v m r hl hnr hfull
    simp [checkRateLimit, hl, hnr, hfull]

/-- Witness for the C9 theorem: three requests of two users in one window,
all accepted, bounds discharged concretely. -/
theorem rateLimit_fixed_window_witness :
    acceptedCount "a" (rlRun ([] : RLMap)
      [{ time := 10, user := "a" }, { time := 20, user := "b" },
        { time := 30, user := "a" }]).1 ≤ 100 := by
  exact (rateLimit_fixed_window 0 "a"
    [{ time := 10, user := "a" }, { time := 20, user := "b" }, { time := 30, user := "a" }]
    (by decide) (by decide)).1

/-- The request sequence refuting the rolling-window reading: one request
at `t = 0`, 99 more late in that fixed window (`t = 59999`), and 100
requests just after the window expires (`t = 60001`). -/
def c9Reqs : List RLReq :=
  { time := 0, user := "u" } ::
    (List.replicate 99 { time := 59999, user := "u" } ++
      List.replicate 100 { time := 60001, user := "u" })

set_option maxRecDepth 10000 in
/-- Counterexample to C9 as stated: within the rolling 60-second window
`[30000, 90000]` the limiter accepts 199 requests of the same user — the
code implements a fixed window anchored at the first request, so two
adjacent fixed windows can each contribute up to 100 acceptances to one
rolling window. -/
theorem rateLimit_rolling_window_counterexample :
    acceptedInSpan "u" 30000 90000 (rlRun ([] : RLMap) c9Reqs).1 = 199 ∧
    90000 - 30000 = rlWindowMs ∧ 100 < 199 := by
  refine ⟨by decide, by decide, by decide⟩

/-! ## Field-preservation lemmas for the actor handlers -/

theorem autoSnapshot_isProcessing (o : Option String) (n : Nat) (s : SessionState) :
    (handleAutoSnapshot o n s).isProcessing = s.isProcessing := by
  unfold handleAutoSnapshot
  split
  · cases o <;> rfl
  · rfl

theorem resumeInternal_isProcessing (env : ResumeEnv) (now : Nat) (s : SessionState) :
    (handleResumeInternal env now s).2.1.isProcessing = s.isProcessing := by
  unfold handleResumeInternal
  split
  · rfl
  · split
    · rfl
    · split
      · rfl
      · split <;> rfl

theorem handleResume_isProcessing (env : ResumeEnv) (now : Nat) (s : SessionState) :
    (handleResume env now s).2.1.isProcessing = s.isProcessing := by
  unfold handleResume
  split
  · rfl
  · exact resumeInternal_isProcessing env now s

theorem handlePause_isProcessing (env : PauseEnv) (now : Nat) (s : SessionState) :
    (handlePause env now s).2.1.isProcessing = s.isProcessing := by
  unfold handlePause
  split
  · rfl
  · split
    · rfl
    · split
      · rfl
      · split <;> rfl

theorem handleStop_isProcessing (now : Nat) (s : SessionState) :
    (handleStop now s).2.1.isProcessing = s.isProcessing :=
  rfl

theorem handleAttach_isProcessing (healthOk : Bool) (now : Nat) (s : SessionState) :
    (handleAttach healthOk now s).2.1.isProcessing = s.isProcessing := by
  unfold handleAttach
  split
  · split <;> rfl
  · rfl

theorem createBg_isProcessing (env : CreateEnv) (now : Nat) (s : SessionState) :
    (createSandboxInBackground env now s).1.isProcessing = s.isProcessing := by
  unfold createSandboxInBackground
  split
  · rfl
  · split
    · rfl
    · split
      · rfl
      · split <;> rfl

theorem initSession_isProcessing (req : InitRequest) (env : CreateEnv) (now : Nat)
    (s : SessionState) :
    (initSession req env now s).2.1.isProcessing = s.isProcessing := by
  unfold initSession
  exact createBg_isProcessing env now _

/-- Every terminal state of the prompt catch block has `isProcessing`
cleared. -/
theorem promptCatch_isProcessing (env : PromptEnv) (pe : PromptErrE) (sc : SessionState) :
    (promptCatch env pe sc).1.isProcessing = false := by
  unfold promptCatch
  split
  · simp [autoSnapshot_isProcessing]
  · cases hs : hasStreamingContent sc <;> simp [hs, autoSnapshot_isProcessing, apply_ite]

/-- Every terminal state of the prompt try/catch block has `isProcessing`
cleared. -/
theorem promptTryCatch_isProcessing (text : String) (env : PromptEnv) (s : SessionState) :
    (promptTryCatch text env s).1.isProcessing = false := by
  unfold promptTryCatch
  cases s.opencodeSessionId with
  | none => exact promptCatch_isProcessing env _ s
  | some oc =>
    cases env.postResult with
    | error pe => exact promptCatch_isProcessing env pe _
    | ok _ =>
      cases env.fetchResult with
      | error pe => exact promptCatch_isProcessing env pe _
      | ok fetched => rw [autoSnapshot_isProcessing]

/-- A prompt that completes without throwing always clears `isProcessing`. -/
theorem handlePrompt_ok_isProcessing (text : String) (env : PromptEnv) (s : SessionState)
    (h : (handlePrompt text env s).1 = Except.ok ()) :
    (handlePrompt text env s).2.1.isProcessing = false := by
  unfold handlePrompt at h ⊢
  by_cases hp : s.isProcessing = true
  · rw [if_pos hp] at h
    cases h
  · rw [if_neg hp] at h ⊢
    cases hr : (promptReachability env (appendUserMessage text env s)).1 with
    | error e =>
      rw [hr] at h
      simp at h
    | ok u =>
      rw [hr] at h
      by_cases hu : (promptReachability env (appendUserMessage text env s)).2.1.sandboxUrl = none
      · rw [if_pos hu] at h
        simp at h
      · rw [if_neg hu]
        exact promptTryCatch_isProcessing text env _

/-! ## Theorems for C10, C1 and C2 -/

theorem step_nonprompt_isProcessing (c : Cmd) (s : SessionState) (h : isPromptCmd c = false) :
    (step c s).2.1.isProcessing = s.isProcessing := by
  cases c with
  | initCmd req env now => exact initSession_isProcessing req env now s
  | promptCmd text env => simp [isPromptCmd] at h
  | pauseCmd env now => exact handlePause_isProcessing env now s
  | resumeCmd env now => exact handleResume_isProcessing env now s
  | stopCmd now => exact handleStop_isProcessing now s
  | attachCmd healthOk now => exact handleAttach_isProcessing healthOk now s

/-- One step of the wedge: with `isProcessing` stuck `true`, no command
resets it, and a prompt is rejected with the busy error. -/
theorem step_wedge (c : Cmd) (s : SessionState) (h : s.isProcessing = true) :
    (step c s).2.1.isProcessing = true ∧
    (isPromptCmd c = true → (step c s).1 = Except.error promptBusyMsg) := by
  cases c with
  | promptCmd text env =>
    constructor
    · show (handlePrompt text env s).2.1.isProcessing = true
      unfold handlePrompt
      rw [if_pos h]
      exact h
    · intro _
      show (handlePrompt text env s).1 = _
      unfold handlePrompt
      rw [if_pos h]
  | initCmd req env now =>
    exact ⟨by rw [step_nonprompt_isProcessing (Cmd.initCmd req env now) s rfl]; exact h,
      by intro hc; cases hc⟩
  | pauseCmd env now =>
    exact ⟨by rw [step_nonprompt_isProcessing (Cmd.pauseCmd env now) s rfl]; exact h,
      by intro hc; cases hc⟩
  | resumeCmd env now =>
    exact ⟨by rw [step_nonprompt_isProcessing (Cmd.resumeCmd env now) s rfl]; exact h,
      by intro hc; cases hc⟩
  | stopCmd now =>
    exact ⟨by rw [step_nonprompt_isProcessing (Cmd.stopCmd now) s rfl]; exact h,
      by intro hc; cases hc⟩
  | attachCmd healthOk now =>
    exact ⟨by rw [step_nonprompt_isProcessing (Cmd.attachCmd healthOk now) s rfl]; exact h,
      by intro hc; cases hc⟩

/-- C10 (confirmed): once `isProcessing` is `true` at a command boundary
(as after a prompt rejected on the NotReady or no-snapshot path), no
subsequent command sequence ever resets it, and every prompt among those
commands is rejected with the busy error. -/
theorem busy_wedge_permanent (s : SessionState) (h : s.isProcessing = true) (cmds : List Cmd) :
    (runState s cmds).isProcessing = true ∧
    ∀ r ∈ promptResults s cmds, r = Except.error promptBusyMsg := by
  induction cmds generalizing s with
  | nil => exact ⟨h, by simp [promptResults]⟩
  | cons c cs ih =>
    have hw := step_wedge c s h
    have ih' := ih (step c s).2.1 hw.1
    refine ⟨ih'.1, ?_⟩
    intro r hr
    by_cases hc : isPromptCmd c = true
    · simp only [promptResults, hc, if_true, List.mem_append, List.mem_singleton] at hr
      rcases hr with hr | hr
      · rw [hr]
        exact hw.2 hc
      · exact ih'.2 r hr
    · rw [Bool.not_eq_true] at hc
      simp only [promptResults, hc, Bool.false_eq_true, if_false, List.nil_append] at hr
      exact ih'.2 r hr

/-- A state wedged with `isProcessing = true` while nothing is in flight. -/
def c10State : SessionState :=
  { freshState 0 with isProcessing := true, status := Status.idle }

/-- A prompt environment with trivial external outcomes, for concrete
runs. -/
def trivialPromptEnv : PromptEnv :=
  { healthOk := false
    resumeEnv := { resumeResult := Except.error "unused", healthyOk := false,
                   createSessionResult := Except.error "unused" }
    events := []
    postResult := Except.ok ()
    fetchResult := Except.ok none
    recoveryResult := none
    snapshotResult := none
    userMsgId := "u-1"
    assistantMsgId := "a-1"
    recoveryMsgId := "r-1"
    noteMsgId := "n-1"
    now := 1000 }

/-- Witness for the C10 theorem: a wedged actor stays wedged across a stop
and a prompt, the prompt answered with the busy error. -/
theorem busy_wedge_permanent_witness :
    (runState c10State [Cmd.stopCmd 5, Cmd.promptCmd "x" trivialPromptEnv]).isProcessing
        = true ∧
    ∀ r ∈ promptResults c10State [Cmd.stopCmd 5, Cmd.promptCmd "x" trivialPromptEnv],
      r = Except.error promptBusyMsg :=
  busy_wedge_permanent c10State rfl [Cmd.stopCmd 5, Cmd.promptCmd "x" trivialPromptEnv]

theorem isOkResult_eq (r : Except String Unit) (h : isOkResult r = true) : r = Except.ok () := by
  cases r with
  | ok v => cases v; rfl
  | error e => cases h

theorem step_ok_keeps_notProcessing (c : Cmd) (s : SessionState)
    (h : s.isProcessing = false)
    (hok : isPromptCmd c = true → isOkResult (step c s).1 = true) :
    (step c s).2.1.isProcessing = false := by
  cases c with
  | promptCmd text env =>
    exact handlePrompt_ok_isProcessing text env s (isOkResult_eq _ (hok rfl))
  | initCmd req env now =>
    rw [step_nonprompt_isProcessing (Cmd.initCmd req env now) s rfl]
    exact h
  | pauseCmd env now =>
    rw [step_nonprompt_isProcessing (Cmd.pauseCmd env now) s rfl]
    exact h
  | resumeCmd env now =>
    rw [step_nonprompt_isProcessing (Cmd.resumeCmd env now) s rfl]
    exact h
  | stopCmd now =>
    rw [step_nonprompt_isProcessing (Cmd.stopCmd now) s rfl]
    exact h
  | attachCmd healthOk now =>
    rw [step_nonprompt_isProcessing (Cmd.attachCmd healthOk now) s rfl]
    exact h

theorem statesAfter_notProcessing (cmds : List Cmd) :
    ∀ s, s.isProcessing = false → promptsAllOk s cmds = true →
      ∀ s' ∈ statesAfter s cmds, s'.isProcessing = false := by
  induction cmds with
  | nil =>
    intro s _ _ s' hs'
    simp [statesAfter] at hs'
  | cons c cs ih =>
    intro s h hok s' hs'
    have hok' := hok
    simp only [promptsAllOk, Bool.and_eq_true, Bool.or_eq_true] at hok'
    have h1 : (step c s).2.1.isProcessing = false := by
      apply step_ok_keeps_notProcessing c s h
      intro hc
      rcases hok'.1 with hneg | hpos
      · rw [Bool.not_eq_true'] at hneg
        rw [hc] at hneg
        cases hneg
      · exact hpos
    simp only [statesAfter, List.mem_cons] at hs'
    rcases hs' with hs' | hs'
    · rw [hs']
      exact h1
    · exact ih (step c s).2.1 h1 hok'.2 s' hs'

/-- C1 (corrected): for every command sequence applied to a fresh actor in
which no prompt is rejected, every post-command state satisfies invariant 3
(`isProcessing = true → status = running`).  A rejected prompt breaks the
invariant permanently — see the counterexample. -/
theorem procInv_holds_when_prompts_ok (cmds : List Cmd)
    (hok : promptsAllOk (freshState 0) cmds = true) :
    ∀ s' ∈ statesAfter (freshState 0) cmds, procInv s' := by
  intro s' hs'
  have h := statesAfter_notProcessing cmds (freshState 0) rfl hok s' hs'
  intro hp
  rw [h] at hp
  cases hp

/-- A concrete happy-path initialize request. -/
def witnessInitReq : InitRequest :=
  { sessionId := "S1", repo := "acme/hello", userId := "U1",
    selectedModel := none, provider := none }

/-- A concrete happy-path sandbox-creation environment. -/
def witnessCreateEnv : CreateEnv :=
  { gitHubTokenResult := Except.ok "tok", createResult := Except.ok ("sb1", "http://t1"),
    healthyOk := true, createSessionResult := Except.ok "a1" }

/-- Witness for the C1 theorem: after initialize-then-stop on a fresh
actor (no prompt, so all prompts trivially succeed), the final state
satisfies invariant 3. -/
theorem procInv_holds_when_prompts_ok_witness :
    procInv (runState (freshState 0)
      [Cmd.initCmd witnessInitReq witnessCreateEnv 10, Cmd.stopCmd 20]) :=
  procInv_holds_when_prompts_ok
    [Cmd.initCmd witnessInitReq witnessCreateEnv 10, Cmd.stopCmd 20] (by decide)
    (runState (freshState 0) [Cmd.initCmd witnessInitReq witnessCreateEnv 10, Cmd.stopCmd 20])
    (by decide)

/-- Counterexample to C1 as stated: a fresh actor receiving a single prompt
(no sandbox, no snapshot) ends with `isProcessing = true` while
`status = idle`, violating invariant 3 after a public command. -/
theorem procInv_violated_counterexample :
    ¬ procInv (runState (freshState 0) [Cmd.promptCmd "hi" trivialPromptEnv]) ∧
    (runState (freshState 0) [Cmd.promptCmd "hi" trivialPromptEnv]).isProcessing = true ∧
    (runState (freshState 0) [Cmd.promptCmd "hi" trivialPromptEnv]).status = Status.idle := by
  refine ⟨?_, by decide, by decide⟩
  intro hinv
  have := hinv (by decide)
  revert this
  decide

/-! ## Theorems for C2 -/

instance : DecidableEq (Except String Unit) := fun a b =>
  match a, b with
  | Except.ok x, Except.ok y => isTrue (by cases x; cases y; rfl)
  | Except.error x, Except.error y =>
    if h : x = y then isTrue (by rw [h]) else isFalse (fun hc => by cases hc; exact h rfl)
  | Except.ok _, Except.error _ => isFalse (fun hc => by cases hc)
  | Except.error _, Except.ok _ => isFalse (fun hc => by cases hc)

/-- C2 (corrected): a prompt rejected with `Busy` leaves the session state
untouched; but a prompt rejected with `NotReady` (status `starting`) or
`NoSandbox` (status `paused`/`idle`/`error` with no snapshot) first appends
the user message and sets `isProcessing = true`, and that mutation
survives the rejection. -/
theorem prompt_rejection_effects (text : String) (env : PromptEnv) (s : SessionState) :
    (s.isProcessing = true →
      handlePrompt text env s = (Except.error promptBusyMsg, s, [], [])) ∧
    (s.isProcessing = false → s.status = Status.starting →
      (handlePrompt text env s).1 = Except.error "Session is still starting, please wait" ∧
      (handlePrompt text env s).2.1 = appendUserMessage text env s ∧
      (appendUserMessage text env s).messages.length = s.messages.length + 1 ∧
      (appendUserMessage text env s).isProcessing = true) ∧
    (s.isProcessing = false → s.snapshotId = none →
      s.status = Status.paused ∨ s.status = Status.idle ∨ s.status = Status.error →
      (handlePrompt text env s).1 =
        Except.error "Session is not running and has no snapshot to resume from" ∧
      (handlePrompt text env s).2.1 = appendUserMessage text env s ∧
      (appendUserMessage text env s).isProcessing = true) := by
  refine ⟨?_, ?_, ?_⟩
  · intro h
    unfold handlePrompt
    rw [if_pos h]
  · intro hp hst
    have hst1 : (appendUserMessage text env s).status = Status.starting := hst
    have hreach : promptReachability env (appendUserMessage text env s) =
        (Except.error "Session is still starting, please wait",
          appendUserMessage text env s, []) := by
      unfold promptReachability
      rw [hst1]
    constructor
    · unfold handlePrompt
      rw [if_neg (by simp [hp]), hreach]
    · refine ⟨?_, by simp [appendUserMessage], rfl⟩
      unfold handlePrompt
      rw [if_neg (by simp [hp]), hreach]
  · intro hp hsnap hst
    have hsnap1 : (appendUserMessage text env s).snapshotId = none := hsnap
    have hreach : promptReachability env (appendUserMessage text env s) =
        (Except.error "Session is not running and has no snapshot to resume from",
          appendUserMessage text env s, []) := by
      unfold promptReachability
      rcases hst with hst | hst | hst <;>
        · have hst1 : (appendUserMessage text env s).status = s.status := rfl
          rw [hst1, hst]
          simp [hsnap1]
    constructor
    · unfold handlePrompt
      rw [if_neg (by simp [hp]), hreach]
    · refine ⟨?_, rfl⟩
      unfold handlePrompt
      rw [if_neg (by simp [hp]), hreach]

/-- Witness for the C2 theorem: a busy session rejects the prompt and is
returned unchanged. -/
theorem prompt_rejection_effects_witness :
    handlePrompt "hi" trivialPromptEnv c10State =
      (Except.error promptBusyMsg, c10State, [], []) :=
  (prompt_rejection_effects "hi" trivialPromptEnv c10State).1 rfl

/-- A session still starting its sandbox. -/
def c2StartingState : SessionState :=
  { freshState 0 with status := Status.starting }

/-- Counterexample to C2 as stated: a prompt rejected with `NotReady` does
mutate the observable state — the user message is appended and
`isProcessing` flips to `true`. -/
theorem prompt_notReady_mutates_counterexample :
    (handlePrompt "hello" trivialPromptEnv c2StartingState).1 =
      Except.error "Session is still starting, please wait" ∧
    (handlePrompt "hello" trivialPromptEnv c2StartingState).2.1.messages.length =
      c2StartingState.messages.length + 1 ∧
    (handlePrompt "hello" trivialPromptEnv c2StartingState).2.1.isProcessing = true ∧
    (handlePrompt "hello" trivialPromptEnv c2StartingState).2.1 ≠ c2StartingState := by
  refine ⟨by decide, by decide, by decide, by decide⟩

/-! ## Theorems for C3 -/

theorem refInv_of_fields (a b : SessionState)
    (h1 : a.status = b.status) (h2 : a.sandboxId = b.sandboxId)
    (h3 : a.sandboxUrl = b.sandboxUrl) (h4 : a.opencodeSessionId = b.opencodeSessionId)
    (h5 : a.snapshotId = b.snapshotId) (hb : refInv b) : refInv a := by
  unfold refInv at hb ⊢
  rw [h1, h2, h3, h4, h5]
  exact hb

theorem autoSnapshot_refInv (o : Option String) (n : Nat) (s : SessionState)
    (hs : refInv s) : refInv (handleAutoSnapshot o n s) := by
  unfold handleAutoSnapshot
  split
  · cases o with
    | none => exact hs
    | some snap =>
      constructor
      · intro hrun
        exact hs.1 hrun
      · intro hpaused
        exact ⟨by simp, (hs.2 hpaused).2.1, (hs.2 hpaused).2.2⟩
  · exact hs

theorem resumeInternal_refInv (env : ResumeEnv) (now : Nat) (s : SessionState)
    (hs : refInv s) :
    refInv (handleResumeInternal env now s).2.1 ∧
    ∀ w ∈ (handleResumeInternal env now s).2.2, refInv w := by
  unfold handleResumeInternal
  split
  · exact ⟨hs, by simp⟩
  · split
    · refine ⟨by simp [refInv], ?_⟩
      intro w hw
      simp only [List.mem_cons, List.not_mem_nil, or_false] at hw
      rcases hw with hw | hw <;> rw [hw] <;> simp [refInv]
    · split
      · refine ⟨by simp [refInv], ?_⟩
        intro w hw
        simp only [List.mem_cons, List.not_mem_nil, or_false] at hw
        rcases hw with hw | hw <;> rw [hw] <;> simp [refInv]
      · split
        · refine ⟨by simp [refInv], ?_⟩
          intro w hw
          simp only [List.mem_cons, List.not_mem_nil, or_false] at hw
          rcases hw with hw | hw <;> rw [hw] <;> simp [refInv]
        · refine ⟨by simp [refInv], ?_⟩
          intro w hw
          simp only [List.mem_cons, List.not_mem_nil, or_false] at hw
          rcases hw with hw | hw <;> rw [hw] <;> simp [refInv]

theorem handleResume_refInv (env : ResumeEnv) (now : Nat) (s : SessionState)
    (hs : refInv s) :
    refInv (handleResume env now s).2.1 ∧ ∀ w ∈ (handleResume env now s).2.2, refInv w := by
  unfold handleResume
  split
  · exact ⟨hs, by simp⟩
  · exact resumeInternal_refInv env now s hs

theorem handlePause_refInv (env : PauseEnv) (now : Nat) (s : SessionState)
    (hs : refInv s) :
    refInv (handlePause env now s).2.1 ∧ ∀ w ∈ (handlePause env now s).2.2, refInv w := by
  unfold handlePause
  split
  · exact ⟨hs, by simp⟩
  · split
    · exact ⟨hs, by simp⟩
    · split
      · refine ⟨by simp [refInv], ?_⟩
        intro w hw
        simp only [List.mem_cons, List.not_mem_nil, or_false] at hw
        rcases hw with hw | hw <;> rw [hw] <;> simp [refInv]
      · split
        · refine ⟨?_, ?_⟩
          · cases hsnap : s.snapshotId with
            | none => simp [refInv, hsnap]
            | some x => simp [refInv, hsnap]
          · intro w hw
            simp only [List.mem_cons, List.not_mem_nil, or_false] at hw
            rcases hw with hw | hw
            · rw [hw]
              simp [refInv]
            · rw [hw]
              cases hsnap : s.snapshotId with
              | none => simp [refInv, hsnap]
              | some x => simp [refInv, hsnap]
        · refine ⟨by simp [refInv], ?_⟩
          intro w hw
          simp only [List.mem_cons, List.not_mem_nil, or_false] at hw
          rcases hw with hw | hw <;> rw [hw] <;> simp [refInv]

theorem handleStop_refInv (now : Nat) (s : SessionState) :
    refInv (handleStop now s).2.1 ∧ ∀ w ∈ (handleStop now s).2.2, refInv w := by
  refine ⟨by simp [handleStop, refInv], ?_⟩
  intro w hw
  simp only [handleStop, List.mem_singleton] at hw
  rw [hw]
  simp [refInv]

theorem handleAttach_refInv (healthOk : Bool) (now : Nat) (s : SessionState)
    (hs : refInv s) :
    refInv (handleAttach healthOk now s).2.1 ∧
    ∀ w ∈ (handleAttach healthOk now s).2.2, refInv w := by
  unfold handleAttach
  split
  · split
    · exact ⟨hs, by simp⟩
    · refine ⟨?_, ?_⟩
      · cases hsnap : s.snapshotId with
        | none => simp [refInv, hsnap]
        | some x => simp [refInv, hsnap]
      · intro w hw
        simp only [List.mem_singleton] at hw
        rw [hw]
        cases hsnap : s.snapshotId with
        | none => simp [refInv, hsnap]
        | some x => simp [refInv, hsnap]
  · exact ⟨hs, by simp⟩

theorem createBg_refInv (env : CreateEnv) (now : Nat) (s : SessionState) :
    refInv (createSandboxInBackground env now s).1 ∧
    ∀ w ∈ (createSandboxInBackground env now s).2, refInv w := by
  unfold createSandboxInBackground
  split
  · refine ⟨by simp [refInv], ?_⟩
    intro w hw
    simp only [List.mem_singleton] at hw
    rw [hw]
    simp [refInv]
  · split
    · refine ⟨by simp [refInv], ?_⟩
      intro w hw
      simp only [List.mem_singleton] at hw
      rw [hw]
      simp [refInv]
    · split
      · refine ⟨by simp [refInv], ?_⟩
        intro w hw
        simp only [List.mem_singleton] at hw
        rw [hw]
        simp [refInv]
      · split
        · refine ⟨by simp [refInv], ?_⟩
          intro w hw
          simp only [List.mem_singleton] at hw
          rw [hw]
          simp [refInv]
        · refine ⟨by simp [refInv], ?_⟩
          intro w hw
          simp only [List.mem_singleton] at hw
          rw [hw]
          simp [refInv]

theorem initSession_refInv (req : InitRequest) (env : CreateEnv) (now : Nat)
    (s : SessionState) :
    refInv (initSession req env now s).2.1 ∧
    ∀ w ∈ (initSession req env now s).2.2, refInv w := by
  unfold initSession
  refine ⟨(createBg_refInv env now _).1, ?_⟩
  intro w hw
  simp only [List.mem_cons] at hw
  rcases hw with hw | hw
  · rw [hw]
    simp [refInv]
  · exact (createBg_refInv env now _).2 w hw

/-- The streaming capture only ever touches `streamingMessage` and
`updatedAt` of the session state: both the in-memory state and every
streaming checkpoint written keep the lifecycle core (status, sandbox refs,
agent session id, snapshot id) of the state at try-block entry. -/
def ctxCoreOk (base : SessionState) (ctx : StreamCtx) : Prop :=
  (ctx.sess.status = base.status ∧ ctx.sess.sandboxId = base.sandboxId ∧
    ctx.sess.sandboxUrl = base.sandboxUrl ∧
    ctx.sess.opencodeSessionId = base.opencodeSessionId ∧
    ctx.sess.snapshotId = base.snapshotId ∧ ctx.sess.messages = base.messages) ∧
  ∀ w ∈ ctx.writes,
    w.status = base.status ∧ w.sandboxId = base.sandboxId ∧ w.sandboxUrl = base.sandboxUrl ∧
    w.opencodeSessionId = base.opencodeSessionId ∧ w.snapshotId = base.snapshotId ∧
    w.messages = base.messages

theorem pushFrame_ctxCoreOk (base : SessionState) (ctx : StreamCtx) (parts : List MsgPart)
    (h : ctxCoreOk base ctx) : ctxCoreOk base (pushFrame ctx parts) := by
  unfold pushFrame
  split
  · exact h
  · exact h

theorem saveProgress_ctxCoreOk (base : SessionState) (aid : String) (now : Nat)
    (ctx : StreamCtx) (h : ctxCoreOk base ctx) :
    ctxCoreOk base (saveStreamingProgress aid now ctx) := by
  unfold saveStreamingProgress
  split
  · exact h
  · dsimp only
    split
    · constructor
      · exact h.1
      · intro w hw
        simp only [List.mem_append, List.mem_singleton] at hw
        rcases hw with hw | hw
        · exact h.2 w hw
        · rw [hw]
          exact h.1
    · exact h

theorem processEvent_ctxCoreOk (u a : String) (base : SessionState) (ctx : StreamCtx)
    (e : RawEvent) (h : ctxCoreOk base ctx) : ctxCoreOk base (processEvent u a ctx e) := by
  unfold processEvent
  by_cases h1 : e.etype = "message.part.updated"
  · rw [if_pos h1]
    cases hp : e.part with
    | none => exact h
    | some p =>
      dsimp only
      by_cases h2 : p.ptype = "text" ∧ p.text ≠ none
      · rw [if_pos h2]
        by_cases h3 : jsTrim (p.text.getD "") = u
        · rw [if_pos h3]
          exact h
        · rw [if_neg h3]
          by_cases h4 : p.text.getD "" = "" ∨ (jsTrim (p.text.getD "")).length = 0
          · rw [if_pos h4]
            exact h
          · rw [if_neg h4]
            exact saveProgress_ctxCoreOk base a e.time _ (pushFrame_ctxCoreOk base _ _ h)
      · rw [if_neg h2]
        by_cases h5 : isToolPart p = true
        · rw [if_pos h5]
          exact saveProgress_ctxCoreOk base a e.time _ (pushFrame_ctxCoreOk base _ _ h)
        · rw [if_neg h5]
          exact h
  · rw [if_neg h1]
    exact h

theorem foldl_ctxCoreOk (u a : String) (base : SessionState) (events : List RawEvent) :
    ∀ ctx, ctxCoreOk base ctx → ctxCoreOk base (events.foldl (processEvent u a) ctx) := by
  induction events with
  | nil => intro ctx h; exact h
  | cons e rest ih =>
    intro ctx h
    exact ih (processEvent u a ctx e) (processEvent_ctxCoreOk u a base ctx e h)

theorem streamAfterEvents_ctxCoreOk (text : String) (env : PromptEnv) (s : SessionState) :
    ctxCoreOk s (streamAfterEvents text env s) := by
  unfold streamAfterEvents
  apply foldl_ctxCoreOk
  exact ⟨⟨rfl, rfl, rfl, rfl, rfl, rfl⟩, by simp [initStreamCtx]⟩

theorem promptCatch_refInv (env : PromptEnv) (pe : PromptErrE) (sc : SessionState)
    (hsc : refInv sc) :
    refInv (promptCatch env pe sc).1 ∧ ∀ w ∈ (promptCatch env pe sc).2, refInv w := by
  unfold promptCatch
  split
  · refine ⟨autoSnapshot_refInv _ _ _ ?_, ?_⟩
    · exact refInv_of_fields _ sc rfl rfl rfl rfl rfl hsc
    · intro w hw
      simp only [List.mem_singleton] at hw
      rw [hw]
      exact refInv_of_fields _ sc rfl rfl rfl rfl rfl hsc
  · have hinner : refInv (if pe.timeoutKind && hasStreamingContent sc then
        { sc with
          messages := sc.messages ++ sc.streamingMessage.toList ++ [noteMessage env]
          streamingMessage := none
          isProcessing := false
          updatedAt := env.now }
      else
        { sc with
          messages := sc.messages ++ [promptErrMessage env pe]
          streamingMessage := none
          isProcessing := false
          updatedAt := env.now }) := by
      split
      · exact refInv_of_fields _ sc rfl rfl rfl rfl rfl hsc
      · exact refInv_of_fields _ sc rfl rfl rfl rfl rfl hsc
    refine ⟨?_, ?_⟩
    · dsimp only
      by_cases hb : hasStreamingContent sc = true
      · rw [if_pos hb]
        exact autoSnapshot_refInv _ _ _ hinner
      · rw [if_neg hb]
        exact hinner
    · intro w hw
      dsimp only at hw
      simp only [List.mem_singleton] at hw
      rw [hw]
      exact hinner

theorem promptTryCatch_refInv (text : String) (env : PromptEnv) (s : SessionState)
    (hs : refInv s) :
    refInv (promptTryCatch text env s).1 ∧ ∀ w ∈ (promptTryCatch text env s).2.1, refInv w := by
  unfold promptTryCatch
  have hcore := streamAfterEvents_ctxCoreOk text env s
  have hsess : refInv (streamAfterEvents text env s).sess :=
    refInv_of_fields _ s hcore.1.1 hcore.1.2.1 hcore.1.2.2.1 hcore.1.2.2.2.1
      hcore.1.2.2.2.2.1 hs
  have hwrites : ∀ w ∈ (streamAfterEvents text env s).writes, refInv w := by
    intro w hw
    have hc := hcore.2 w hw
    exact refInv_of_fields _ s hc.1 hc.2.1 hc.2.2.1 hc.2.2.2.1 hc.2.2.2.2.1 hs
  split
  · exact promptCatch_refInv env _ s hs
  · split
    · refine ⟨(promptCatch_refInv env _ _ hsess).1, ?_⟩
      intro w hw
      simp only [List.mem_append] at hw
      rcases hw with hw | hw
      · exact hwrites w hw
      · exact (promptCatch_refInv env _ _ hsess).2 w hw
    · split
      · refine ⟨(promptCatch_refInv env _ _ hsess).1, ?_⟩
        intro w hw
        simp only [List.mem_append] at hw
        rcases hw with hw | hw
        · exact hwrites w hw
        · exact (promptCatch_refInv env _ _ hsess).2 w hw
      · refine ⟨autoSnapshot_refInv _ _ _
          (refInv_of_fields _ (streamAfterEvents text env s).sess rfl rfl rfl rfl rfl hsess),
          ?_⟩
        intro w hw
        simp only [List.mem_append, List.mem_singleton] at hw
        rcases hw with hw | hw
        · exact hwrites w hw
        · rw [hw]
          exact refInv_of_fields _ (streamAfterEvents text env s).sess rfl rfl rfl rfl rfl hsess

theorem promptReachability_refInv (env : PromptEnv) (s1 : SessionState) (hs : refInv s1) :
    refInv (promptReachability env s1).2.1 ∧
    ∀ w ∈ (promptReachability env s1).2.2, refInv w := by
  unfold promptReachability
  split
  · split
    · exact ⟨hs, by simp⟩
    · split
      · rename_i hrun hdead hsnap
        have hs2 : refInv { s1 with
            status := Status.paused
            sandboxId := none
            sandboxUrl := none
            opencodeSessionId := none
            updatedAt := env.now } := by
          constructor
          · intro hc
            cases hc
          · intro _
            exact ⟨by simpa [Option.isSome_iff_ne_none] using hsnap, rfl, rfl⟩
        refine ⟨(resumeInternal_refInv env.resumeEnv env.now _ hs2).1, ?_⟩
        intro w hw
        simp only [List.mem_cons] at hw
        rcases hw with hw | hw
        · rw [hw]
          exact hs2
        · exact (resumeInternal_refInv env.resumeEnv env.now _ hs2).2 w hw
      · refine ⟨by simp [refInv], ?_⟩
        intro w hw
        simp only [List.mem_singleton] at hw
        rw [hw]
        simp [refInv]
  · split
    · exact resumeInternal_refInv env.resumeEnv env.now s1 hs
    · exact ⟨hs, by simp⟩
  · split
    · exact resumeInternal_refInv env.resumeEnv env.now s1 hs
    · exact ⟨hs, by simp⟩
  · split
    · exact resumeInternal_refInv env.resumeEnv env.now s1 hs
    · exact ⟨hs, by simp⟩
  · exact ⟨hs, by simp⟩

theorem handlePrompt_refInv (text : String) (env : PromptEnv) (s : SessionState)
    (hs : refInv s) :
    refInv (handlePrompt text env s).2.1 ∧
    ∀ w ∈ (handlePrompt text env s).2.2.1, refInv w := by
  unfold handlePrompt
  by_cases hp : s.isProcessing = true
  · rw [if_pos hp]
    exact ⟨hs, by simp⟩
  · rw [if_neg hp]
    have hs1 : refInv (appendUserMessage text env s) :=
      refInv_of_fields _ s rfl rfl rfl rfl rfl hs
    have hre := promptReachability_refInv env (appendUserMessage text env s) hs1
    cases hr : (promptReachability env (appendUserMessage text env s)).1 with
    | error e =>
      refine ⟨hre.1, ?_⟩
      intro w hw
      simp only [List.mem_cons] at hw
      rcases hw with hw | hw
      · rw [hw]
        exact hs1
      · exact hre.2 w hw
    | ok u =>
      by_cases hu : (promptReachability env (appendUserMessage text env s)).2.1.sandboxUrl = none
      · rw [if_pos hu]
        refine ⟨hre.1, ?_⟩
        intro w hw
        simp only [List.mem_cons] at hw
        rcases hw with hw | hw
        · rw [hw]
          exact hs1
        · exact hre.2 w hw
      · rw [if_neg hu]
        have htc := promptTryCatch_refInv text env
          (promptReachability env (appendUserMessage text env s)).2.1 hre.1
        refine ⟨htc.1, ?_⟩
        intro w hw
        simp only [List.cons_append, List.mem_cons, List.mem_append] at hw
        rcases hw with hw | hw | hw
        · rw [hw]
          exact hs1
        · exact hre.2 w hw
        · exact htc.2 w hw

theorem step_refInv (c : Cmd) (s : SessionState) (hs : refInv s) :
    refInv (step c s).2.1 ∧ ∀ w ∈ (step c s).2.2, refInv w := by
  cases c with
  | initCmd req env now => exact initSession_refInv req env now s
  | promptCmd text env => exact handlePrompt_refInv text env s hs
  | pauseCmd env now => exact handlePause_refInv env now s hs
  | resumeCmd env now => exact handleResume_refInv env now s hs
  | stopCmd now => exact handleStop_refInv now s
  | attachCmd healthOk now => exact handleAttach_refInv healthOk now s hs

theorem writesOf_refInv (cmds : List Cmd) :
    ∀ s, refInv s → ∀ w ∈ writesOf s cmds, refInv w := by
  induction cmds with
  | nil =>
    intro s _ w hw
    simp [writesOf] at hw
  | cons c cs ih =>
    intro s hs w hw
    simp only [writesOf, List.mem_append] at hw
    rcases hw with hw | hw
    · exact (step_refInv c s hs).2 w hw
    · exact ih (step c s).2.1 (step_refInv c s hs).1 w hw

/-- C3 (confirmed): after every durable write of `SessionState` produced by
any command sequence on a fresh actor, a `running` state carries a sandbox
id, a sandbox URL and an agent session id, and a `paused` state carries a
snapshot id and no sandbox refs. -/
theorem durable_write_invariants (cmds : List Cmd) :
    ∀ w ∈ writesOf (freshState 0) cmds, refInv w := by
  apply writesOf_refInv
  simp [refInv, freshState]

/-- Witness for the C3 theorem: the state written by a `stop` on a fresh
actor satisfies the invariants. -/
theorem durable_write_invariants_witness :
    refInv { freshState 0 with
             sandboxId := none
             sandboxUrl := none
             opencodeSessionId := none
             status := Status.idle
             updatedAt := 5 } :=
  durable_write_invariants [Cmd.stopCmd 5] _ (by decide)

/-! ## Theorems for C5 -/

/-- Whether a part is a text part echoing the (already trimmed) user
prompt `u`. -/
def echoPart (u : String) : MsgPart → Bool
  | MsgPart.text t => decide (jsTrim t = u)
  | MsgPart.tool _ => false

theorem mem_insertByFirstSeen (x t : TrackedPart) (l : List TrackedPart) :
    x ∈ insertByFirstSeen t l ↔ x = t ∨ x ∈ l := by
  induction l with
  | nil => simp [insertByFirstSeen]
  | cons y ys ih =>
    unfold insertByFirstSeen
    split
    · simp only [List.mem_cons, ih]
      tauto
    · simp only [List.mem_cons]

theorem mem_sortByFirstSeen (x : TrackedPart) (l : List TrackedPart) :
    x ∈ sortByFirstSeen l ↔ x ∈ l := by
  induction l with
  | nil => simp [sortByFirstSeen]
  | cons y ys ih =>
    unfold sortByFirstSeen
    rw [mem_insertByFirstSeen]
    simp [ih]

/-- Every tracked part of the tracker is a non-echo part. -/
def trackerEchoFree (u : String) (tr : List TrackedPart) : Prop :=
  ∀ t ∈ tr, echoPart u t.part = false

theorem trackerSet_echoFree (u : String) (tr : List TrackedPart) (pid mid : String)
    (seen : Nat) (p : MsgPart) (h : trackerEchoFree u tr) (hp : echoPart u p = false) :
    trackerEchoFree u (trackerSet tr pid mid seen p) := by
  unfold trackerSet
  split
  · intro t ht
    rw [List.mem_map] at ht
    rcases ht with ⟨t0, ht0, heq⟩
    by_cases hid : t0.partId = pid
    · rw [if_pos hid] at heq
      rw [← heq]
      exact hp
    · rw [if_neg hid] at heq
      rw [← heq]
      exact h t0 ht0
  · intro t ht
    rw [List.mem_append] at ht
    rcases ht with ht | ht
    · exact h t ht
    · rw [List.mem_singleton] at ht
      rw [ht]
      exact hp

theorem getPartsInOrder_echoFree (u : String) (tr : List TrackedPart)
    (h : trackerEchoFree u tr) : ∀ p ∈ getPartsInOrder tr, echoPart u p = false := by
  intro p hp
  unfold getPartsInOrder at hp
  rw [List.mem_filter] at hp
  rcases hp with ⟨hp, _⟩
  rw [List.mem_map] at hp
  rcases hp with ⟨t, ht, heq⟩
  rw [mem_sortByFirstSeen] at ht
  rw [← heq]
  exact h t ht

/-- The echo invariant of the streaming context: no echo part is tracked,
appears in any emitted frame, or sits in the checkpointed streaming
message. -/
def ctxEchoOk (u : String) (ctx : StreamCtx) : Prop :=
  trackerEchoFree u ctx.tracker ∧
  (∀ f ∈ ctx.frames, ∀ p ∈ f, echoPart u p = false) ∧
  (∀ m, ctx.sess.streamingMessage = some m → ∀ p ∈ m.parts, echoPart u p = false)

theorem pushFrame_ctxEchoOk (u : String) (ctx : StreamCtx) (parts : List MsgPart)
    (h : ctxEchoOk u ctx) (hparts : ∀ p ∈ parts, echoPart u p = false) :
    ctxEchoOk u (pushFrame ctx parts) := by
  unfold pushFrame
  split
  · exact h
  · refine ⟨h.1, ?_, h.2.2⟩
    intro f hf
    simp only [List.mem_append, List.mem_singleton] at hf
    rcases hf with hf | hf
    · exact h.2.1 f hf
    · rw [hf]
      exact hparts

theorem saveProgress_ctxEchoOk (u aid : String) (now : Nat) (ctx : StreamCtx)
    (h : ctxEchoOk u ctx) : ctxEchoOk u (saveStreamingProgress aid now ctx) := by
  unfold saveStreamingProgress
  split
  · exact h
  · dsimp only
    split
    · refine ⟨h.1, h.2.1, ?_⟩
      intro m hm p hp
      cases hm
      exact getPartsInOrder_echoFree u ctx.tracker h.1 p hp
    · exact h

theorem processEvent_ctxEchoOk (u a : String) (ctx : StreamCtx) (e : RawEvent)
    (h : ctxEchoOk u ctx) : ctxEchoOk u (processEvent u a ctx e) := by
  unfold processEvent
  by_cases h1 : e.etype = "message.part.updated"
  · rw [if_pos h1]
    cases hp : e.part with
    | none => exact h
    | some p =>
      dsimp only
      by_cases h2 : p.ptype = "text" ∧ p.text ≠ none
      · rw [if_pos h2]
        by_cases h3 : jsTrim (p.text.getD "") = u
        · rw [if_pos h3]
          exact h
        · rw [if_neg h3]
          by_cases h4 : p.text.getD "" = "" ∨ (jsTrim (p.text.getD "")).length = 0
          · rw [if_pos h4]
            exact h
          · rw [if_neg h4]
            apply saveProgress_ctxEchoOk
            apply pushFrame_ctxEchoOk
            · exact ⟨trackerSet_echoFree u ctx.tracker _ _ e.time _ h.1
                (by simp [echoPart, h3]), h.2.1, h.2.2⟩
            · exact getPartsInOrder_echoFree u _ (trackerSet_echoFree u ctx.tracker _ _ e.time _
                h.1 (by simp [echoPart, h3]))
      · rw [if_neg h2]
        by_cases h5 : isToolPart p = true
        · rw [if_pos h5]
          apply saveProgress_ctxEchoOk
          apply pushFrame_ctxEchoOk
          · exact ⟨trackerSet_echoFree u ctx.tracker _ _ e.time _ h.1 rfl, h.2.1, h.2.2⟩
          · exact getPartsInOrder_echoFree u _ (trackerSet_echoFree u ctx.tracker _ _ e.time _
              h.1 rfl)
        · rw [if_neg h5]
          exact h
  · rw [if_neg h1]
    exact h

theorem foldl_ctxEchoOk (u a : String) (events : List RawEvent) :
    ∀ ctx, ctxEchoOk u ctx → ctxEchoOk u (events.foldl (processEvent u a) ctx) := by
  induction events with
  | nil => intro ctx h; exact h
  | cons e rest ih =>
    intro ctx h
    exact ih (processEvent u a ctx e) (processEvent_ctxEchoOk u a ctx e h)

theorem streamAfterEvents_ctxEchoOk (text : String) (env : PromptEnv) (s : SessionState)
    (hsm : s.streamingMessage = none) :
    ctxEchoOk (jsTrim text) (streamAfterEvents text env s) := by
  unfold streamAfterEvents
  apply foldl_ctxEchoOk
  refine ⟨?_, ?_, ?_⟩
  · intro t ht
    cases ht
  · intro f hf
    cases hf
  · intro m hm
    rw [show (initStreamCtx s).sess = s from rfl, hsm] at hm
    cases hm

theorem normalizeFetched_echoFree (u : String) (ctr : Nat) (ps : List OpenCodePart) :
    ∀ p ∈ (normalizeFetched u ctr ps).1, echoPart u p = false := by
  induction ps generalizing ctr with
  | nil =>
    intro p hp
    cases hp
  | cons q qs ih =>
    intro p hp
    unfold normalizeFetched at hp
    split at hp
    · split at hp
      · rename_i hkeep
        simp only [List.mem_cons] at hp
        rcases hp with hp | hp
        · rw [hp]
          simpa [echoPart] using hkeep.1
        · exact ih ctr p hp
      · exact ih ctr p hp
    · split at hp
      · simp only [List.mem_cons] at hp
        rcases hp with hp | hp
        · rw [hp]
          rfl
        · exact ih (ctr + 1) p hp
      · exact ih ctr p hp

theorem chooseFinalParts_cases (a b : List MsgPart) :
    chooseFinalParts a b = a ∨ chooseFinalParts a b = b := by
  unfold chooseFinalParts
  split
  · exact Or.inl rfl
  · exact Or.inr rfl

theorem promptRecoveryMsg_none (env : PromptEnv) (pe : PromptErrE) (sc : SessionState)
    (hrec : env.recoveryResult = none) : promptRecoveryMsg env pe sc = none := by
  unfold promptRecoveryMsg
  rw [hrec]
  split
  · rfl
  · rfl

theorem autoSnapshot_messages (o : Option String) (n : Nat) (s : SessionState) :
    (handleAutoSnapshot o n s).messages = s.messages := by
  unfold handleAutoSnapshot
  split
  · cases o <;> rfl
  · rfl

theorem fetchedFinalParts_echoFree (u : String) (ctr : Nat)
    (fetched : Option (List FetchedMsg)) :
    ∀ p ∈ fetchedFinalParts u ctr fetched, echoPart u p = false := by
  cases fetched with
  | none =>
    intro p hp
    cases hp
  | some msgs =>
    intro p hp
    unfold fetchedFinalParts at hp
    dsimp only at hp
    cases hl : (msgs.filter fun m => m.role = "assistant").getLast? with
    | none =>
      rw [hl] at hp
      cases hp
    | some lastA =>
      rw [hl] at hp
      exact normalizeFetched_echoFree u ctr lastA.parts p hp

theorem chooseFinalParts_echoFree (u : String) (a b : List MsgPart)
    (ha : ∀ p ∈ a, echoPart u p = false) (hb : ∀ p ∈ b, echoPart u p = false) :
    ∀ p ∈ chooseFinalParts a b, echoPart u p = false := by
  rcases chooseFinalParts_cases a b with hc | hc <;> rw [hc] <;> assumption

theorem noteMessage_role (env : PromptEnv) : (noteMessage env).role = Role.system := rfl

theorem promptErrMessage_role (env : PromptEnv) (pe : PromptErrE) :
    (promptErrMessage env pe).role = Role.system := rfl

theorem promptCatch_echo (u : String) (env : PromptEnv) (pe : PromptErrE) (sc : SessionState)
    (hrec : env.recoveryResult = none)
    (hstream : ∀ m, sc.streamingMessage = some m → ∀ p ∈ m.parts, echoPart u p = false) :
    ∀ m ∈ (promptCatch env pe sc).1.messages,
      m ∈ sc.messages ∨ m.role ≠ Role.assistant ∨ ∀ p ∈ m.parts, echoPart u p = false := by
  unfold promptCatch
  rw [promptRecoveryMsg_none env pe sc hrec]
  dsimp only
  intro m hm
  by_cases hb : hasStreamingContent sc = true
  · rw [if_pos hb, autoSnapshot_messages] at hm
    by_cases ht : pe.timeoutKind = true
    · have hcond : (pe.timeoutKind && hasStreamingContent sc) = true := by rw [ht, hb]; rfl
      rw [if_pos hcond] at hm
      simp only [List.append_assoc, List.mem_append, List.mem_singleton] at hm
      rcases hm with hm | hm | hm
      · exact Or.inl hm
      · cases hsm : sc.streamingMessage with
        | none =>
          rw [hsm] at hm
          cases hm
        | some m0 =>
          rw [hsm] at hm
          simp only [Option.toList_some, List.mem_singleton] at hm
          rw [hm]
          exact Or.inr (Or.inr (hstream m0 hsm))
      · rw [hm]
        exact Or.inr (Or.inl (by rw [noteMessage_role]; simp))
    · have hcond : (pe.timeoutKind && hasStreamingContent sc) = false := by
        rw [Bool.not_eq_true] at ht
        rw [ht]
        rfl
      rw [hcond] at hm
      simp only [Bool.false_eq_true, if_false, List.mem_append, List.mem_singleton] at hm
      rcases hm with hm | hm
      · exact Or.inl hm
      · rw [hm]
        exact Or.inr (Or.inl (by rw [promptErrMessage_role]; simp))
  · rw [if_neg hb] at hm
    have hcond : (pe.timeoutKind && hasStreamingContent sc) = false := by
      rw [Bool.not_eq_true] at hb
      rw [hb, Bool.and_false]
    rw [hcond] at hm
    simp only [Bool.false_eq_true, if_false, List.mem_append, List.mem_singleton] at hm
    rcases hm with hm | hm
    · exact Or.inl hm
    · rw [hm]
      exact Or.inr (Or.inl (by rw [promptErrMessage_role]; simp))

theorem resumeInternal_msgs (env : ResumeEnv) (now : Nat) (s : SessionState) :
    (handleResumeInternal env now s).2.1.messages = s.messages ∧
    (handleResumeInternal env now s).2.1.streamingMessage = s.streamingMessage := by
  unfold handleResumeInternal
  split
  · exact ⟨rfl, rfl⟩
  · split
    · exact ⟨rfl, rfl⟩
    · split
      · exact ⟨rfl, rfl⟩
      · split <;> exact ⟨rfl, rfl⟩

theorem promptReachability_msgs (env : PromptEnv) (s1 : SessionState) :
    (promptReachability env s1).2.1.messages = s1.messages ∧
    (promptReachability env s1).2.1.streamingMessage = s1.streamingMessage := by
  unfold promptReachability
  split
  · split
    · exact ⟨rfl, rfl⟩
    · split
      · exact resumeInternal_msgs env.resumeEnv env.now _
      · exact ⟨rfl, rfl⟩
  · split
    · exact resumeInternal_msgs env.resumeEnv env.now s1
    · exact ⟨rfl, rfl⟩
  · split
    · exact resumeInternal_msgs env.resumeEnv env.now s1
    · exact ⟨rfl, rfl⟩
  · split
    · exact resumeInternal_msgs env.resumeEnv env.now s1
    · exact ⟨rfl, rfl⟩
  · exact ⟨rfl, rfl⟩

theorem promptTryCatch_echo (text : String) (env : PromptEnv) (s2 : SessionState)
    (hsm2 : s2.streamingMessage = none) (hrec : env.recoveryResult = none) :
    (∀ f ∈ (promptTryCatch text env s2).2.2, ∀ p ∈ f, echoPart (jsTrim text) p = false) ∧
    (∀ m ∈ (promptTryCatch text env s2).1.messages,
      m ∈ s2.messages ∨ m.role ≠ Role.assistant ∨
        ∀ p ∈ m.parts, echoPart (jsTrim text) p = false) := by
  have hecho := streamAfterEvents_ctxEchoOk text env s2 hsm2
  have hcore := streamAfterEvents_ctxCoreOk text env s2
  have hmsgs : (streamAfterEvents text env s2).sess.messages = s2.messages :=
    hcore.1.2.2.2.2.2
  unfold promptTryCatch
  split
  · constructor
    · intro f hf
      cases hf
    · intro m hm
      apply promptCatch_echo (jsTrim text) env _ s2 hrec _ m hm
      intro m0 hm0
      rw [hsm2] at hm0
      cases hm0
  · split
    · constructor
      · intro f hf
        exact hecho.2.1 f hf
      · intro m hm
        rcases promptCatch_echo (jsTrim text) env _ (streamAfterEvents text env s2).sess hrec
            hecho.2.2 m hm with hmem | hx | hx
        · exact Or.inl (hmsgs ▸ hmem)
        · exact Or.inr (Or.inl hx)
        · exact Or.inr (Or.inr hx)
    · split
      · constructor
        · intro f hf
          exact hecho.2.1 f hf
        · intro m hm
          rcases promptCatch_echo (jsTrim text) env _ (streamAfterEvents text env s2).sess hrec
              hecho.2.2 m hm with hmem | hx | hx
          · exact Or.inl (hmsgs ▸ hmem)
          · exact Or.inr (Or.inl hx)
          · exact Or.inr (Or.inr hx)
      · constructor
        · intro f hf
          exact hecho.2.1 f hf
        · intro m hm
          rw [show ((handleAutoSnapshot env.snapshotResult env.now _ : SessionState),
              (streamAfterEvents text env s2).writes ++ [_], (streamAfterEvents text env s2).frames).1
              = handleAutoSnapshot env.snapshotResult env.now _ from rfl] at hm
          rw [autoSnapshot_messages] at hm
          simp only [List.mem_append, List.mem_singleton] at hm
          rcases hm with hm | hm
          · exact Or.inl (hmsgs ▸ hm)
          · refine Or.inr (Or.inr ?_)
            rw [hm]
            exact chooseFinalParts_echoFree (jsTrim text) _ _
              (getPartsInOrder_echoFree (jsTrim text) _ hecho.1)
              (fetchedFinalParts_echoFree (jsTrim text) _ _)

/-- C5 (corrected): apart from the post-timeout recovery branch (excluded
here by `env.recoveryResult = none`), no text part whose trimmed text
equals the trimmed prompt ever appears in a streaming frame, and every
assistant message the prompt appends to `messages` is echo-free.  The
recovery branch itself commits the fetched parts unfiltered — see the
counterexample. -/
theorem echo_filter (text : String) (env : PromptEnv) (s : SessionState)
    (hsm : s.streamingMessage = none) (hrec : env.recoveryResult = none) :
    (∀ f ∈ (handlePrompt text env s).2.2.2, ∀ p ∈ f, echoPart (jsTrim text) p = false) ∧
    (∀ m ∈ (handlePrompt text env s).2.1.messages,
      m ∈ s.messages ∨ m.role ≠ Role.assistant ∨
        ∀ p ∈ m.parts, echoPart (jsTrim text) p = false) := by
  have huser : ∀ m ∈ (appendUserMessage text env s).messages,
      m ∈ s.messages ∨ m.role ≠ Role.assistant ∨
        ∀ p ∈ m.parts, echoPart (jsTrim text) p = false := by
    intro m hm
    unfold appendUserMessage at hm
    simp only [List.mem_append, List.mem_singleton] at hm
    rcases hm with hm | hm
    · exact Or.inl hm
    · refine Or.inr (Or.inl ?_)
      rw [hm]
      simp [userMessageOf]
  unfold handlePrompt
  by_cases hp : s.isProcessing = true
  · rw [if_pos hp]
    refine ⟨?_, ?_⟩
    · intro f hf
      cases hf
    · intro m hm
      exact Or.inl hm
  · rw [if_neg hp]
    cases hr : (promptReachability env (appendUserMessage text env s)).1 with
    | error e =>
      constructor
      · intro f hf
        cases hf
      · intro m hm
        rw [show ((Except.error e : Except String Unit),
            (promptReachability env (appendUserMessage text env s)).2.1,
            appendUserMessage text env s ::
              (promptReachability env (appendUserMessage text env s)).2.2,
            ([] : List (List MsgPart))).2.1
            = (promptReachability env (appendUserMessage text env s)).2.1 from rfl] at hm
        rw [(promptReachability_msgs env (appendUserMessage text env s)).1] at hm
        exact huser m hm
    | ok u =>
      by_cases hu : (promptReachability env (appendUserMessage text env s)).2.1.sandboxUrl = none
      · rw [if_pos hu]
        constructor
        · intro f hf
          cases hf
        · intro m hm
          rw [(promptReachability_msgs env (appendUserMessage text env s)).1] at hm
          exact huser m hm
      · rw [if_neg hu]
        have hsm2 : (promptReachability env (appendUserMessage text env s)).2.1.streamingMessage
            = none := by
          rw [(promptReachability_msgs env (appendUserMessage text env s)).2]
          exact hsm
        have h2 := promptTryCatch_echo text env
          (promptReachability env (appendUserMessage text env s)).2.1 hsm2 hrec
        constructor
        · intro f hf
          exact h2.1 f hf
        · intro m hm
          rcases h2.2 m hm with hmem | hx | hx
          · apply huser m
            rw [← (promptReachability_msgs env (appendUserMessage text env s)).1]
            exact hmem
          · exact Or.inr (Or.inl hx)
          · exact Or.inr (Or.inr hx)

/-- A running session with live sandbox refs, for concrete prompt runs. -/
def c5State : SessionState :=
  { freshState 0 with
    status := Status.running
    sandboxId := some "sb"
    sandboxUrl := some "http://t"
    opencodeSessionId := some "oc" }

/-- A prompt environment whose POST times out and whose recovery fetch
returns an assistant message that is exactly the user's prompt echo. -/
def c5Env : PromptEnv :=
  { trivialPromptEnv with
    healthOk := true
    postResult := Except.error { msg := "TimeoutError: signal timed out", timeoutKind := true }
    recoveryResult := some [{ role := "assistant", parts := [MsgPart.text "hi"] }] }

/-- Counterexample to C5 as stated: the post-timeout `fetchMessages`
recovery branch commits the fetched assistant parts without the echo
filter, so an echoed prompt text appears in the committed assistant
message. -/
theorem echo_in_recovery_counterexample :
    ∃ m ∈ (handlePrompt "hi" c5Env c5State).2.1.messages,
      m.role = Role.assistant ∧ ∃ p ∈ m.parts, echoPart (jsTrim "hi") p = true := by
  decide

/-- A streamed OpenCode text part carrying `"par"`. -/
def c5WitnessPart : OpenCodePart :=
  { emptyPart with
    ptype := "text"
    text := some "par"
    id := some "p1"
    messageID := some "m1" }

/-- A prompt environment streaming one non-echo text part. -/
def c5WitnessEnv : PromptEnv :=
  { trivialPromptEnv with
    healthOk := true
    events := [{ etype := "message.part.updated", part := some c5WitnessPart,
                 index := none, time := 3000 }] }

/-- Witness for the C5 theorem: in a run streaming the text part `"par"`
against prompt `"hi"`, the streamed frame's part is not an echo. -/
theorem echo_filter_witness :
    echoPart (jsTrim "hi") (MsgPart.text "par") = false :=
  (echo_filter "hi" c5WitnessEnv c5State rfl rfl).1 [MsgPart.text "par"] (by decide)
    (MsgPart.text "par") (by decide)

/-! ## Theorems for C6 -/

theorem autoSnapshot_streamingMessage (o : Option String) (n : Nat) (s : SessionState) :
    (handleAutoSnapshot o n s).streamingMessage = s.streamingMessage := by
  unfold handleAutoSnapshot
  split
  · cases o <;> rfl
  · rfl

/-- Shape of the catch block on a timeout-kind error with partial
streaming content and no successful recovery: the streamed message and the
literal timeout note are appended, `streamingMessage` is cleared and
`isProcessing` reset. -/
theorem promptCatch_timeout_partial (env : PromptEnv) (pe : PromptErrE) (sc : SessionState)
    (m : Message) (hrec : env.recoveryResult = none) (htk : pe.timeoutKind = true)
    (hsm : sc.streamingMessage = some m) (hm : m.parts ≠ []) :
    (promptCatch env pe sc).1.messages = sc.messages ++ [m, noteMessage env] ∧
    (promptCatch env pe sc).1.streamingMessage = none ∧
    (promptCatch env pe sc).1.isProcessing = false := by
  have hb : hasStreamingContent sc = true := by
    unfold hasStreamingContent
    rw [hsm]
    simp [List.length_pos, hm]
  have hcond : (pe.timeoutKind && hasStreamingContent sc) = true := by
    rw [htk, hb]
    rfl
  unfold promptCatch
  rw [promptRecoveryMsg_none env pe sc hrec]
  dsimp only
  rw [if_pos hb, hcond]
  simp only [if_true]
  rw [autoSnapshot_messages, autoSnapshot_streamingMessage, autoSnapshot_isProcessing]
  refine ⟨?_, rfl, rfl⟩
  rw [show ({ sc with
      messages := sc.messages ++ sc.streamingMessage.toList ++ [noteMessage env]
      streamingMessage := none
      isProcessing := false
      updatedAt := env.now } : SessionState).messages
    = sc.messages ++ sc.streamingMessage.toList ++ [noteMessage env] from rfl]
  rw [hsm]
  simp

/-- Same shape one level up, at the try/catch block, when the prompt POST
fails with a timeout-kind error. -/
theorem promptTryCatch_timeout_partial (text : String) (env : PromptEnv) (s2 : SessionState)
    (pe : PromptErrE) (m : Message) (oc : String)
    (hoc : s2.opencodeSessionId = some oc)
    (hpe : env.postResult = Except.error pe) (htk : pe.timeoutKind = true)
    (hrec : env.recoveryResult = none)
    (hsm : (streamAfterEvents text env s2).sess.streamingMessage = some m)
    (hm : m.parts ≠ []) :
    (promptTryCatch text env s2).1.messages = s2.messages ++ [m, noteMessage env] ∧
    (promptTryCatch text env s2).1.streamingMessage = none ∧
    (promptTryCatch text env s2).1.isProcessing = false := by
  have hcore := streamAfterEvents_ctxCoreOk text env s2
  have hcatch := promptCatch_timeout_partial env pe (streamAfterEvents text env s2).sess m
    hrec htk hsm hm
  unfold promptTryCatch
  rw [hoc]
  dsimp only
  rw [hpe]
  dsimp only
  refine ⟨?_, hcatch.2.1, hcatch.2.2⟩
  rw [hcatch.1, hcore.1.2.2.2.2.2]

/-- C6 (corrected): when the prompt POST fails with a timeout-kind error,
the recovery fetch yields nothing, and the streamed message has at least
one part, the final messages are the previous messages, the user message,
the streamed assistant message and a system message whose single text part
is the code's literal note — which spells "processing - try refreshing"
with a hyphen, not the em dash the claim quotes (see the counterexample);
`streamingMessage` is cleared and `isProcessing` reset. -/
theorem prompt_timeout_partial_content (text : String) (env : PromptEnv) (s : SessionState)
    (pe : PromptErrE) (m : Message) (url oc : String)
    (hp : s.isProcessing = false) (hst : s.status = Status.running)
    (hurl : s.sandboxUrl = some url) (hhealth : env.healthOk = true)
    (hoc : s.opencodeSessionId = some oc)
    (hpe : env.postResult = Except.error pe) (htk : pe.timeoutKind = true)
    (hrec : env.recoveryResult = none)
    (hsm : (streamAfterEvents text env (appendUserMessage text env s)).sess.streamingMessage
      = some m)
    (hm : m.parts ≠ []) :
    (handlePrompt text env s).2.1.messages =
      s.messages ++ [userMessageOf text env, m, noteMessage env] ∧
    (noteMessage env).role = Role.system ∧
    (noteMessage env).parts = [MsgPart.text timeoutNoteText] ∧
    (handlePrompt text env s).2.1.streamingMessage = none ∧
    (handlePrompt text env s).2.1.isProcessing = false := by
  have hst1 : (appendUserMessage text env s).status = Status.running := hst
  have hurl1 : (appendUserMessage text env s).sandboxUrl = some url := hurl
  have hoc1 : (appendUserMessage text env s).opencodeSessionId = some oc := hoc
  have hreach : promptReachability env (appendUserMessage text env s) =
      (Except.ok (), appendUserMessage text env s, []) := by
    unfold promptReachability
    rw [hst1]
    dsimp only
    rw [if_pos ⟨by rw [hurl1]; rfl, hhealth⟩]
  have htc := promptTryCatch_timeout_partial text env (appendUserMessage text env s) pe m oc
    hoc1 hpe htk hrec hsm hm
  unfold handlePrompt
  rw [if_neg (by rw [hp]; simp), hreach]
  dsimp only
  rw [if_neg (by rw [hurl1]; simp)]
  dsimp only
  refine ⟨?_, rfl, rfl, htc.2.1, htc.2.2⟩
  rw [htc.1]
  rw [show (appendUserMessage text env s).messages = s.messages ++ [userMessageOf text env]
    from rfl]
  simp

/-- A running state for the C6 scenario. -/
def c6State : SessionState :=
  { freshState 0 with
    status := Status.running
    sandboxId := some "sb1"
    sandboxUrl := some "http://t1"
    opencodeSessionId := some "oc1" }

/-- The claim's quoted note text, with an em dash before "try refreshing".
The code's literal (`timeoutNoteText`) uses a plain hyphen there. -/
def c6ClaimNote : String :=
  "⚠️ Response timed out. Partial content shown above. The AI may still be processing — try refreshing in a moment."

/-- An environment that streams one text part (`"par"`, saved at t=3000)
and whose prompt POST then fails with a timeout. -/
def c6Env : PromptEnv :=
  { trivialPromptEnv with
    healthOk := true
    events := [{ etype := "message.part.updated", part := some c5WitnessPart,
                 index := none, time := 3000 }]
    postResult := Except.error { msg := "TimeoutError: signal timed out", timeoutKind := true } }

/-- Counterexample to C6 as stated: in a timeout-with-partial-content run
the appended system note's text is the code's hyphen variant, which differs
from the em-dash string quoted by the claim. -/
theorem timeout_note_text_counterexample :
    (handlePrompt "q" c6Env c6State).2.1.messages.getLast? = some (noteMessage c6Env) ∧
    (noteMessage c6Env).parts = [MsgPart.text timeoutNoteText] ∧
    timeoutNoteText ≠ c6ClaimNote := by
  refine ⟨by decide, rfl, by decide⟩

/-- Witness for the C6 theorem at the concrete run of
`timeout_note_text_counterexample`'s environment. -/
theorem prompt_timeout_partial_content_witness :
    (handlePrompt "q" c6Env c6State).2.1.messages =
      c6State.messages ++ [userMessageOf "q" c6Env,
        { id := "a-1", role := Role.assistant, parts := [MsgPart.text "par"], timestamp := 3000 },
        noteMessage c6Env] ∧
    (handlePrompt "q" c6Env c6State).2.1.streamingMessage = none ∧
    (handlePrompt "q" c6Env c6State).2.1.isProcessing = false := by
  have h := prompt_timeout_partial_content "q" c6Env c6State
    { msg := "TimeoutError: signal timed out", timeoutKind := true }
    { id := "a-1", role := Role.assistant, parts := [MsgPart.text "par"], timestamp := 3000 }
    "http://t1" "oc1" rfl rfl rfl rfl rfl rfl rfl rfl (by decide) (by decide)
  exact ⟨h.1, h.2.2.2.1, h.2.2.2.2⟩

end Tabbi
